import Mathlib

/-!
Verification development for the Web_Crawler repository.

The repository contains the crawl API handler in several revisions:
`src/app/api/crawl/route.ts` is the oldest revision; the files
`src/unnamed/part_000` and `src/unnamed/part_001` are later revisions of the
same handler (their comments reference the older values they replace, e.g.
"Changed from networkidle0 to domcontentloaded", and the UI revision in
`src/unnamed/part_003` consumes the `newResults` stream field that only the
later revisions emit).  The embedding below therefore follows
`src/unnamed/part_001` for the orchestrator (`POST`), the browser pool with
drain flags from `src/unnamed/part_000` lines 86-167 (identical in part_001),
and the full per-page status classification table from
`src/app/api/crawl/route.ts` lines 541-827 (the revision cited by the
status-classification claim; part_001 keeps the 403/429/>=400 subset of it).

External collaborators (puppeteer pages, the WHATWG URL parser, the
filesystem, the client connection) are modelled as an `Env` of oracles; the
repository code itself is translated statement by statement.

Scheduling note: the source is single-threaded JavaScript.  Within a wave,
`Promise.all(batch.map(...))` starts every `crawlPage` call in order and each
call runs synchronously up to its first `await`; the visited-set check and
insertion are inside that synchronous prologue, so no interleaving can fall
between them.  The model therefore executes the calls of a wave in order,
which preserves every property stated below (frame contents, visited-set
discipline, result multiplicity).
-/

/-- `pat` is a prefix of `l`, as a computable check on character lists
(the simp-normal form of JavaScript `s.startsWith(pat)`; the `String`
primitives do not reduce in the kernel, character lists do). -/
def listPrefixOf : List Char → List Char → Bool
  | [], _ => true
  | _ :: _, [] => false
  | a :: as, b :: bs => a == b && listPrefixOf as bs

/-- `pat` occurs somewhere in `l` as a contiguous run. -/
def listInfixOf (pat : List Char) : List Char → Bool
  | [] => pat.isEmpty
  | b :: bs => listPrefixOf pat (b :: bs) || listInfixOf pat bs

/-- JavaScript `s.startsWith(pat)`. -/
def strStartsWith (s pat : String) : Bool :=
  listPrefixOf pat.data s.data

/-- JavaScript `s.endsWith(pat)`. -/
def strEndsWith (s pat : String) : Bool :=
  listPrefixOf pat.data.reverse s.data.reverse

/-- JavaScript `s.includes(pat)`: `pat` occurs as a contiguous substring. -/
def strContains (s pat : String) : Bool :=
  listInfixOf pat.data s.data

/-- Membership sweep of a JavaScript `Set` built by insertion: `seen` holds
the values already inserted. -/
def dedupSeen (seen : List String) : List String → List String
  | [] => []
  | x :: xs => if x ∈ seen then dedupSeen seen xs else x :: dedupSeen (x :: seen) xs

/-- JavaScript `Array.from(new Set(l))`: deduplicate keeping first occurrences. -/
def dedupKeepFirst (l : List String) : List String :=
  dedupSeen [] l

/-- Batch splitting with explicit fuel (the fuel is only a structural
termination device; `chunks` always supplies enough). -/
def chunksFuel (k : Nat) : Nat → List α → List (List α)
  | _, [] => []
  | 0, _ :: _ => []
  | fuel + 1, x :: xs =>
    if k = 0 then []
    else ((x :: xs).take k) :: chunksFuel k fuel ((x :: xs).drop k)

/-- JavaScript `for (let i = 0; i < l.length; i += k) { batch := l.slice(i, i+k) }`:
split a list into consecutive batches of size `k`.  For `k = 0` the source
loop would never terminate; the model returns no batches and every theorem
about the orchestrator assumes `1 ≤ concurrentPages`, the bound the request
schema imposes. -/
def chunks (k : Nat) (l : List α) : List (List α) :=
  chunksFuel k l.length l

/-- Hostnames on the static deny-list (`BLOCKED_SITES`, route.ts lines 534-539). -/
def BLOCKED_SITES : List String :=
  ["reddit.com", "www.reddit.com", "udemy.com", "www.udemy.com"]

/-- Pool capacity (`MAX_BROWSER_INSTANCES`, route.ts line 82). -/
def MAX_BROWSER_INSTANCES : Nat := 3

/-- Result of `new URL(s)` when parsing succeeds: the fields the crawler reads. -/
structure UrlObj where
  hostname : String
  origin : String
deriving DecidableEq, Repr

/-- WCAG level selection from the request (`wcagLevels`). -/
structure WcagLevels where
  A : Bool
  AA : Bool
  AAA : Bool
deriving DecidableEq, Repr

/-- One axe-core rule outcome; only the fields the filter reads are kept
(`id` for identification, `tags` for conformance filtering). -/
structure AxeOutcome where
  id : String
  tags : List String
deriving DecidableEq, Repr

/-- The accessibility report attached to a crawl result
(`CrawlResult.accessibilityResults`). -/
structure AccReport where
  violations : List AxeOutcome
  passes : List AxeOutcome
  incomplete : List AxeOutcome
  nonApplicable : List AxeOutcome
  error : Option String := none
deriving DecidableEq, Repr

/-- `filterByWcagLevel` from `src/app/api/crawl/route.ts` lines 470-482
(the same code appears in part_000 lines 597-609 and in part_001): keep an
outcome when it has no tag starting with `wcag2`, otherwise when some such
tag passes the sequential `endsWith` cascade against the enabled levels. -/
def filterByWcagLevel (wcagLevels : WcagLevels) (result : AxeOutcome) : Bool :=
  let wcagTags := result.tags.filter (fun t => strStartsWith t "wcag2")
  if wcagTags.isEmpty then true
  else wcagTags.any (fun tag =>
    if strEndsWith tag "a" && wcagLevels.A then true
    else if strEndsWith tag "aa" && wcagLevels.AA then true
    else if strEndsWith tag "aaa" && wcagLevels.AAA then true
    else false)

/-- HTTP status classification from `crawlPage`
(`src/app/api/crawl/route.ts` lines 614-671).  The argument is
`response?.status()`: `none` models a null response, and JavaScript
`if (status)` also skips the whole block when the status is `0`. -/
def classifyStatus : Option Nat → Option String
  | none => none
  | some st =>
    if st = 0 then none
    else if st = 403 then
      some "Access forbidden (403). This website is blocking web crawlers. Please use their official API or contact them for access."
    else if st = 429 then
      some "Too many requests (429). This website is rate limiting access. Please try again later."
    else if st = 304 then
      some "Page not modified (304)"
    else if st = 204 || st = 205 then
      some ("No content (" ++ toString st ++ ")")
    else if st = 407 then
      some "Proxy authentication required (407)"
    else if st ≥ 400 then
      some ("HTTP Error " ++ toString st)
    else none

/-- Exception-message classification from the `catch` block of `crawlPage`
(`src/app/api/crawl/route.ts` lines 797-819, identical in part_000/part_001):
sequential `error.message.includes(...)` tests with the raw message as
fallback. -/
def classifyError (m : String) : String :=
  if strContains m "ERR_TOO_MANY_REDIRECTS" then "Too many redirects detected"
  else if strContains m "ERR_ABORTED" then "Request was aborted"
  else if strContains m "ERR_HTTP2_PROTOCOL_ERROR" then "HTTP/2 protocol error"
  else if strContains m "ERR_UNEXPECTED_PROXY_AUTH" then "Unexpected proxy authentication"
  else if strContains m "timeout" then "Page load timed out"
  else if strContains m "net::ERR_CONNECTION_REFUSED" then "Connection refused"
  else if strContains m "net::ERR_CONNECTION_TIMED_OUT" then "Connection timed out"
  else if strContains m "net::ERR_NAME_NOT_RESOLVED" then "Domain name not resolved"
  else m

/-- Error message of the deny-list early return (`crawlPage` lines 556-562). -/
def blockedSiteMsg (hostname : String) : String :=
  "This website (" ++ hostname ++ ") is known to block web crawlers. Please use their official API or contact them for access."

/-- Error message of the anti-bot detection return (`crawlPage` lines 683-691). -/
def antiBotMsg : String :=
  "This website has detected automated access and is blocking the crawler. Please use their official API or contact them for access."

/-- One crawl result (`interface CrawlResult`). -/
structure CrawlResult where
  url : String
  screenshot : Option String := none
  links : List String := []
  error : Option String := none
  accessibilityResults : Option AccReport := none
deriving DecidableEq, Repr

namespace Pool

/-!
Browser-pool drain model, from `src/unnamed/part_000` lines 86-167 (identical
in part_001): module state `browserPool`, `isCleaningUp`, `cleanupPromise`.

`closeAllBrowsers` runs synchronously from `isCleaningUp = true` up to the
assignment of `cleanupPromise` (the async IIFE suspends for the first time at
its internal `await`, at which point the promise object has already been
assigned), so no other task ever observes `isCleaningUp = true` with
`cleanupPromise = null`; `start` models that atomic prefix and `finish`
models the rest of the IIFE together with its `finally` block.  A task that
executes `await cleanupPromise` resumes only after `finish` has run, so from
its point of view the await is `finish` applied to the current state.
-/

/-- Module-level pool state: live instance ids, the `isCleaningUp` flag, and
whether `cleanupPromise` is non-null.  `nextId` numbers launched instances. -/
structure BPool where
  pool : List Nat
  nextId : Nat
  cleaning : Bool
  promise : Bool
deriving DecidableEq, Repr

/-- Synchronous prefix of `closeAllBrowsers` (part_000 lines 136-144): an
in-flight cleanup returns immediately, otherwise the flag and the promise are
set together. -/
def closeAllBrowsersStart (s : BPool) : BPool :=
  if s.cleaning then s
  else { s with cleaning := true, promise := true }

/-- Remainder of `closeAllBrowsers` (part_000 lines 144-164): every instance
is closed with its own try/catch, the pool is emptied, and the `finally`
block clears both the flag and the promise. -/
def closeAllBrowsersFinish (s : BPool) : BPool :=
  { s with pool := [], cleaning := false, promise := false }

/-- `getBrowser` (part_000 lines 106-134) as observed by a caller: `await
cleanupPromise` (which forces the in-flight cleanup to completion before this
task resumes), then the `isCleaningUp` guard, then launch-or-reuse. -/
def getBrowser (s : BPool) : Except String Nat × BPool :=
  let s1 := if s.promise then closeAllBrowsersFinish s else s
  if s1.cleaning then
    (Except.error "Browser pool is currently being cleaned up. Please try again in a moment.", s1)
  else if s1.pool.length < MAX_BROWSER_INSTANCES then
    (Except.ok s1.nextId, { s1 with pool := s1.pool ++ [s1.nextId], nextId := s1.nextId + 1 })
  else
    (Except.ok (s1.pool.getD (s1.pool.length % MAX_BROWSER_INSTANCES) 0), s1)

end Pool

/-- Outcome of `page.goto(url, ...)`: either the promise rejects with an
exception message, or it resolves and `response?.status()` is read (`none`
models a null response). -/
inductive NavOutcome
  | thrown (msg : String)
  | resp (status : Option Nat)
deriving DecidableEq, Repr

/-- Raw axe-core analysis output (the `results` object in
`runAccessibilityCheckOnLocalCopy`). -/
structure AxeRaw where
  violations : List AxeOutcome
  passes : List AxeOutcome
  incomplete : List AxeOutcome
  inapplicable : List AxeOutcome
deriving DecidableEq, Repr

/-- The crawl request body (`interface CrawlRequest`). -/
structure CrawlRequest where
  url : String
  takeScreenshots : Bool
  crawlEntireWebsite : Bool
  checkAccessibility : Bool
  wcagLevels : WcagLevels
  increaseTimeout : Bool
  slowRateLimit : Bool
  concurrentPages : Nat
deriving DecidableEq, Repr

/-- External collaborators as oracles: the WHATWG URL parser, the headless
browser (navigation outcome, anchor hrefs, anti-bot markers, screenshots),
axe-core, the sitemap fetch, the client connection, and the failure
behaviour of launches, page creations (`newPageFails b` is the exception
message `browser.newPage()` rejects with on pooled instance `b`, `none` when
it resolves), closes and timeout races. -/
structure Env where
  urlParse : String → Option UrlObj
  resolve : String → String → Option String
  navigate : String → NavOutcome
  hrefs : String → List String
  antiBot : String → Bool
  shotFails : String → Bool
  screenshotName : String → String
  axe : String → Except String AxeRaw
  sitemapOk : Bool
  sitemapLocs : List String
  launchFails : Nat → Bool
  newPageFails : Nat → Option String
  closeFails : Nat → Bool
  writeFails : Nat → Bool
  pageTimeout : String → Bool
  batchTimeout : List String → Bool
  newBatchTimeout : List String → Bool

/-- Observable actions of one run, in order. -/
inductive Ev
  | cleanShots (dirAfter : List String)
  | cleanViolShots
  | cleanTemp
  | sitemapFetch
  | fetch (url : String)
  | navigate (url : String)
  | launch (id : Nat)
  | closeAttempt (id : Nat) (failed : Bool)
  | closeAll
deriving DecidableEq, Repr

/-- One newline-delimited JSON frame written to the response stream. -/
inductive Frame
  | progress (newResults : List CrawlResult) (usedSitemap : Option Bool)
      (checkedAccessibility : Bool) (prog : Option (Nat × Nat))
  | final (results : List CrawlResult) (usedSitemap : Option Bool)
      (checkedAccessibility : Bool)
  | error (msg : String) (prog : Option (Nat × Nat))
deriving DecidableEq, Repr

/-- Mutable state of one `POST` run (local variables of the handler plus the
module globals it touches). -/
structure St where
  visited : List String
  results : List CrawlResult
  frames : List Frame
  events : List Ev
  pool : List Nat
  launchCount : Nat
  shotsDir : List String
  usedSitemap : Option Bool
  connected : Bool
  writeCount : Nat
deriving DecidableEq, Repr

/-- Fresh run state over the module-global pool and screenshots directory. -/
def initSt (pool0 : List Nat) (shots0 : List String) : St :=
  { visited := [], results := [], frames := [], events := [], pool := pool0,
    launchCount := 0, shotsDir := shots0, usedSitemap := none,
    connected := true, writeCount := 0 }

/-- `writeResponse` (part_001 lines 1000-1010): skip when disconnected; a
failed write flips `isClientConnected` and the frame is lost. -/
def writeFrame (env : Env) (f : Frame) (st : St) : St :=
  if ¬ st.connected then st
  else if env.writeFails st.writeCount then
    { st with connected := false, writeCount := st.writeCount + 1 }
  else
    { st with frames := st.frames ++ [f], writeCount := st.writeCount + 1 }

/-- `cleanupScreenshots` (route.ts lines 152-160, part_001 lines 169-177):
read the directory listing and unlink every listed file. -/
def cleanupScreenshots (dir : List String) : List String :=
  dir.foldl (fun d f => d.erase f) dir

/-- `getSitemapUrls` (part_001 lines 208-231): navigate a throwaway browser
to `/sitemap.xml` and collect the deduplicated `<loc>` values; any failure is
caught and yields the empty list. -/
def getSitemapUrls (env : Env) (st : St) : List String × St :=
  (if env.sitemapOk then dedupKeepFirst env.sitemapLocs else [],
   { st with events := st.events ++ [Ev.sitemapFetch] })

/-- `getBrowser` as called from inside a run (part_001 lines 106-134; during
a sequential run `isCleaningUp` is false and `cleanupPromise` is null, the
drain interplay is analysed separately on `Pool.BPool`): launch and register
a new instance while below capacity (the launch itself may reject), else
reuse an existing instance round-robin. -/
def getBrowserInRun (env : Env) (st : St) : Except String Nat × St :=
  if st.pool.length < MAX_BROWSER_INSTANCES then
    let n := st.launchCount
    if env.launchFails n then
      (Except.error "Failed to launch the browser process",
       { st with launchCount := n + 1 })
    else
      (Except.ok n, { st with pool := st.pool ++ [n], launchCount := n + 1,
                              events := st.events ++ [Ev.launch n] })
  else
    (Except.ok (st.pool.getD (st.pool.length % MAX_BROWSER_INSTANCES) 0), st)

/-- Accessibility delegation in `crawlPage` (part_001 lines 880-910 calling
`runAccessibilityCheckOnLocalCopy`): on success the four axe categories each
filtered by `filterByWcagLevel`; on failure the catch block builds a report
with empty categories and the error message. -/
def runA11y (env : Env) (url : String) (levels : WcagLevels) : AccReport :=
  match env.axe url with
  | Except.error e =>
    { violations := [], passes := [], incomplete := [], nonApplicable := [],
      error := some e }
  | Except.ok raw =>
    { violations := raw.violations.filter (filterByWcagLevel levels),
      passes := raw.passes.filter (filterByWcagLevel levels),
      incomplete := raw.incomplete.filter (filterByWcagLevel levels),
      nonApplicable := raw.inapplicable.filter (filterByWcagLevel levels),
      error := none }

/-- Link extraction and filtering in `crawlPage` (route.ts lines 719-743):
anchor hrefs with fragment or `javascript:` pseudo-links dropped, the rest
resolved against the page URL (a resolution failure skips the link), kept
when prefixed by the crawl origin and not yet visited, deduplicated by a
`Set`. -/
def collectPageLinks (env : Env) (url baseUrl : String) (visited : List String) :
    List String :=
  dedupKeepFirst ((env.hrefs url).filterMap (fun href =>
    if strStartsWith href "#" || strStartsWith href "javascript:" then none
    else
      match env.resolve href url with
      | none => none
      | some abs =>
        if strStartsWith abs baseUrl ∧ abs ∉ visited then some abs else none))

/-- `crawlPage` (route.ts lines 541-827; part_000/part_001 keep the same
structure, part_001 merely drops the 304/204/205/407 branches and the
anti-bot check, on which no orchestration theorem below depends).  The
`Except` return models the promise: `Except.error` is a rejection, which
only the prologue before the `try` block can produce (the `new URL(url)`
parse, the `getBrowser()` launch and the `browser.newPage()` call precede
the `try`). -/
def crawlPage (env : Env) (req : CrawlRequest) (url baseUrl : String)
    (collectLinks : Bool) (st0 : St) : Except String CrawlResult × St :=
  let st := { st0 with events := st0.events ++ [Ev.fetch url] }
  match env.urlParse url with
  | none => (Except.error "Invalid URL", st)
  | some urlObj =>
    if urlObj.hostname ∈ BLOCKED_SITES then
      (Except.ok { url := url, links := [],
                   error := some (blockedSiteMsg urlObj.hostname) }, st)
    else if url ∈ st.visited then
      (Except.ok { url := url, links := [] }, st)
    else
      let stv := { st with visited := st.visited ++ [url] }
      match getBrowserInRun env stv with
      | (Except.error e, stb) => (Except.error e, stb)
      | (Except.ok b, stb) =>
        match env.newPageFails b with
        | some m => (Except.error m, stb)
        | none =>
          let stn := { stb with events := stb.events ++ [Ev.navigate url] }
          match env.navigate url with
          | NavOutcome.thrown m =>
            (Except.ok { url := url, links := [],
                         error := some (classifyError m) }, stn)
          | NavOutcome.resp status =>
            match classifyStatus status with
            | some e => (Except.ok { url := url, links := [], error := some e }, stn)
            | none =>
              if env.antiBot url then
                (Except.ok { url := url, links := [], error := some antiBotMsg }, stn)
              else
                let shotRes :=
                  if req.takeScreenshots then
                    if env.shotFails url then (none, stn)
                    else (some ("/screenshots/" ++ env.screenshotName url ++ ".png"),
                          { stn with shotsDir :=
                              stn.shotsDir ++ [env.screenshotName url ++ ".png"] })
                  else (none, stn)
                let sts := shotRes.2
                let links :=
                  if collectLinks then collectPageLinks env url baseUrl sts.visited
                  else []
                let a11y :=
                  if req.checkAccessibility then some (runA11y env url req.wcagLevels)
                  else none
                (Except.ok { url := url, screenshot := shotRes.1, links := links,
                             accessibilityResults := a11y }, sts)

/-- Per-URL wrapper of the batched crawl (part_001 lines 1095-1115 and
1163-1181): the initial-list loop skips URLs already visited, every call is
raced against a 180 s timer, and a timeout or rejection is converted into an
error result so one page never aborts its batch.  When the timer wins the
crawl continues in the background: its state effects remain, only its result
is discarded. -/
def fetchWrapped (env : Env) (req : CrawlRequest) (baseUrl : String)
    (guard : Bool) (url : String) (st : St) : Option CrawlResult × St :=
  if guard ∧ url ∈ st.visited then (none, st)
  else
    let out := crawlPage env req url baseUrl true st
    if env.pageTimeout url then
      (some { url := url, links := [], error := some "Page crawl timeout" }, out.2)
    else
      match out.1 with
      | Except.ok r => (some r, out.2)
      | Except.error e =>
        (some { url := url, links := [], error := some e }, out.2)

/-- One wave: the `Promise.all` items executed in program order (each item
runs its synchronous prologue in order; see the scheduling note above). -/
def runWave (env : Env) (req : CrawlRequest) (baseUrl : String) (guard : Bool) :
    List String → St → List CrawlResult × St
  | [], st => ([], st)
  | u :: us, st =>
    let out := fetchWrapped env req baseUrl guard u st
    let rest := runWave env req baseUrl guard us out.2
    (out.1.toList ++ rest.1, rest.2)

/-- Link harvest after a wave (part_001 lines 1139-1147): every result link
not yet visited, collected into a `Set` in order. -/
def harvest (rs : List CrawlResult) (visited : List String) : List String :=
  dedupKeepFirst ((rs.map (fun r => r.links)).flatten.filter
    (fun l => decide (l ∉ visited)))

/-- The new-links loop (part_001 lines 1152-1216): bounded-concurrency waves
over the fixed harvested array; each wave is raced against a 5 minute batch
timer whose firing yields an error frame instead of results; otherwise the
results are appended and a progress frame carries exactly the wave results. -/
def newLinksLoop (env : Env) (req : CrawlRequest) (baseUrl : String)
    (total : Nat) : List (List String) → St → St
  | [], st => st
  | c :: cs, st =>
    if ¬ st.connected then st
    else
      let w := runWave env req baseUrl false c st
      let st2 :=
        if env.newBatchTimeout c then
          writeFrame env (Frame.error
            "Error processing batch: New batch processing timeout"
            (some (w.2.results.length, total))) w.2
        else
          let stp := { w.2 with results := w.2.results ++ w.1 }
          writeFrame env (Frame.progress w.1 (some false) req.checkAccessibility
            (some (stp.results.length, total))) stp
      newLinksLoop env req baseUrl total cs st2

/-- The main batch loop over `urlsToCrawl` (part_001 lines 1084-1228): the
accumulator `n` is the loop index `i` (count of initial URLs already
windowed), used by the progress field of the frame. -/
def outerLoop (env : Env) (req : CrawlRequest) (baseUrl : String)
    (usedSitemap : Bool) (totalUrls : Nat) :
    List (List String) → Nat → St → St
  | [], _, st => st
  | c :: cs, n, st =>
    if ¬ st.connected then st
    else
      let w := runWave env req baseUrl true c st
      let st4 :=
        if env.batchTimeout c then
          writeFrame env (Frame.error
            "Error processing batch: Batch processing timeout"
            (some (w.2.results.length, totalUrls))) w.2
        else
          let st2 := { w.2 with results := w.2.results ++ w.1 }
          let st3 := writeFrame env (Frame.progress w.1 (some usedSitemap)
            req.checkAccessibility (some (n + c.length, totalUrls))) st2
          if usedSitemap then st3
          else
            let H := harvest w.1 st3.visited
            newLinksLoop env req baseUrl (totalUrls + H.length)
              (chunks req.concurrentPages H) st3
      outerLoop env req baseUrl usedSitemap totalUrls cs (n + c.length) st4

/-- The crawl `try` body of the handler (part_001 lines 1075-1263) including
the terminal frame and the inner catch (reached when the unwrapped
single-page `crawlPage` rejects). -/
def crawlBody (env : Env) (req : CrawlRequest) (baseUrl : String) (st : St) : St :=
  if req.crawlEntireWebsite then
    let sm := (getSitemapUrls env st).1
    let st1 := (getSitemapUrls env st).2
    let usedSitemap : Bool := !sm.isEmpty
    let urlsToCrawl := if sm.isEmpty then [req.url] else sm
    let st2 := { st1 with usedSitemap := some usedSitemap }
    let st3 := outerLoop env req baseUrl usedSitemap urlsToCrawl.length
      (chunks req.concurrentPages urlsToCrawl) 0 st2
    writeFrame env (Frame.final st3.results (some usedSitemap)
      req.checkAccessibility) st3
  else
    match crawlPage env req req.url baseUrl false st with
    | (Except.error _, st1) =>
      writeFrame env (Frame.error "Internal server error during crawl" none) st1
    | (Except.ok r, st1) =>
      let st2 := { st1 with results := st1.results ++ [r] }
      let st3 := writeFrame env (Frame.progress [r] none req.checkAccessibility
        none) st2
      writeFrame env (Frame.final st3.results none req.checkAccessibility) st3

/-- `closeAllBrowsers` as reached at the end of a run (part_001 lines
136-167): every instance closed under its own try/catch (a failure is logged
and ignored), then the pool emptied.  The drain-flag interplay with
concurrent `getBrowser` callers is analysed on `Pool.BPool` above. -/
def closeAllInRun (env : Env) (st : St) : St :=
  { st with pool := [],
            events := st.events ++
              (st.pool.map (fun b => Ev.closeAttempt b (env.closeFails b))) ++
              [Ev.closeAll] }

/-- The cleanup prologue of the handler (part_001 lines 1054-1068): old
screenshots are deleted when `takeScreenshots` is set, old violation
screenshots when `checkAccessibility` is set, and the temp directory is
always cleared. -/
def cleanupPhase (req : CrawlRequest) (st0 : St) : St :=
  let st1 :=
    if req.takeScreenshots then
      { st0 with shotsDir := cleanupScreenshots st0.shotsDir,
                 events := st0.events ++
                   [Ev.cleanShots (cleanupScreenshots st0.shotsDir)] }
    else st0
  let st2 :=
    if req.checkAccessibility then
      { st1 with events := st1.events ++ [Ev.cleanViolShots] }
    else st1
  { st2 with events := st2.events ++ [Ev.cleanTemp] }

/-- `POST` (part_001 lines 993-1295): the full request lifecycle from body
validation to pool teardown.  `pool0` and `shots0` are the module-global
browser pool and the public screenshots directory as the run finds them.
The missing-URL path returns from inside the outer `try` before any
`finally` with a teardown is entered; the malformed-URL path (the
`new URL(url).origin` throw) lands in the outer catch whose `finally` does
tear the pool down. -/
def POST (env : Env) (req : CrawlRequest) (pool0 : List Nat)
    (shots0 : List String) : St :=
  let st0 := initSt pool0 shots0
  if req.url = "" then
    writeFrame env (Frame.error "URL is required" none) st0
  else
    let st3 := cleanupPhase req st0
    match env.urlParse req.url with
    | none =>
      closeAllInRun env (writeFrame env (Frame.error "Internal server error" none) st3)
    | some urlObj =>
      closeAllInRun env (crawlBody env req urlObj.origin st3)

/-! ### Helper functions over run traces -/

/-- URLs actually navigated (issued `page.goto`) during the run, in order. -/
def navsOf (evs : List Ev) : List String :=
  evs.filterMap (fun e => match e with | Ev.navigate u => some u | _ => none)

/-- URLs on which `crawlPage` was invoked (selected for fetching), in order. -/
def fetchesOf (evs : List Ev) : List String :=
  evs.filterMap (fun e => match e with | Ev.fetch u => some u | _ => none)

/-- Concatenation of the `newResults` payloads of the non-terminal progress
frames of a frame list. -/
def progressConcat : List Frame → List CrawlResult
  | [] => []
  | Frame.progress nr _ _ _ :: fs => nr ++ progressConcat fs
  | Frame.final _ _ _ :: fs => progressConcat fs
  | Frame.error _ _ :: fs => progressConcat fs

/-- Whether a frame is the terminal (`isComplete: true`) frame. -/
def Frame.isFinal : Frame → Bool
  | Frame.final _ _ _ => true
  | _ => false

/-- Visited-set/navigation discipline: every navigation in the trace is of a
URL recorded in the visited set, and no URL is ever navigated twice. -/
def NavOk (st : St) : Prop :=
  (navsOf st.events).Nodup ∧ ∀ u ∈ navsOf st.events, u ∈ st.visited

/-! ### Concrete demonstration environments

Small closed instances used by the witness and counterexample theorems. -/

/-- Toy URL parser recognising the two origins used by the concrete runs. -/
def demoParse (s : String) : Option UrlObj :=
  if strStartsWith s "http://s" then some { hostname := "s", origin := "http://s" }
  else if strStartsWith s "http://a" then some { hostname := "a", origin := "http://a" }
  else none

/-- A fully well-behaved collaborator environment: every navigation resolves
with HTTP 200, pages have no links, no timer fires, and the client stays
connected. -/
def cleanEnv : Env :=
  { urlParse := demoParse
    resolve := fun href _ => some href
    navigate := fun _ => NavOutcome.resp (some 200)
    hrefs := fun _ => []
    antiBot := fun _ => false
    shotFails := fun _ => false
    screenshotName := fun u => u
    axe := fun _ => Except.error "Failed to run accessibility check after all retries"
    sitemapOk := true
    sitemapLocs := []
    launchFails := fun _ => false
    newPageFails := fun _ => none
    closeFails := fun _ => false
    writeFails := fun _ => false
    pageTimeout := fun _ => false
    batchTimeout := fun _ => false
    newBatchTimeout := fun _ => false }

/-- Site with a three-URL sitemap (the streaming-contract scenario). -/
def env3 : Env :=
  { cleanEnv with sitemapLocs := ["http://s/1", "http://s/2", "http://s/3"] }

/-- Full-site crawl request with `concurrentPages = 1` and all optional
processing off. -/
def req3 : CrawlRequest :=
  { url := "http://s/", takeScreenshots := false, crawlEntireWebsite := true,
    checkAccessibility := false,
    wcagLevels := { A := true, AA := true, AAA := true },
    increaseTimeout := false, slowRateLimit := false, concurrentPages := 1 }

/-- Site without a sitemap forming a three-page chain: the seed links to
`/b`, `/b` links to `/c`, and `/c` is a leaf — `/c` is reachable from the
seed at link depth two. -/
def envC2 : Env :=
  { cleanEnv with
    hrefs := fun u =>
      if u = "http://a/" then ["http://a/b"]
      else if u = "http://a/b" then ["http://a/c"]
      else [] }

/-- The same full-site request aimed at the chained site. -/
def reqC2 : CrawlRequest := { req3 with url := "http://a/" }

/-- Environment whose every navigation answers with HTTP 403. -/
def env403 : Env :=
  { cleanEnv with navigate := fun _ => NavOutcome.resp (some 403) }

/-- Environment whose every navigation throws a DNS-resolution failure. -/
def envDNS : Env :=
  { cleanEnv with navigate := fun _ => NavOutcome.thrown "net::ERR_NAME_NOT_RESOLVED" }

/-! ### List-level lemmas -/

theorem navsOf_append (a b : List Ev) : navsOf (a ++ b) = navsOf a ++ navsOf b := by
  simp [navsOf, List.filterMap_append]

theorem fetchesOf_append (a b : List Ev) :
    fetchesOf (a ++ b) = fetchesOf a ++ fetchesOf b := by
  simp [fetchesOf, List.filterMap_append]

theorem navsOf_fetch (u : String) : navsOf [Ev.fetch u] = [] := rfl

theorem navsOf_navigate (u : String) : navsOf [Ev.navigate u] = [u] := rfl

theorem navsOf_launch (n : Nat) : navsOf [Ev.launch n] = [] := rfl

theorem fetchesOf_fetch (u : String) : fetchesOf [Ev.fetch u] = [u] := rfl

theorem fetchesOf_navigate (u : String) : fetchesOf [Ev.navigate u] = [] := rfl

theorem fetchesOf_launch (n : Nat) : fetchesOf [Ev.launch n] = [] := rfl

theorem mem_dedupSeen {x : String} :
    ∀ {seen l : List String}, x ∈ dedupSeen seen l ↔ x ∈ l ∧ x ∉ seen := by
  intro seen l
  induction l generalizing seen with
  | nil => simp [dedupSeen]
  | cons y ys ih =>
    by_cases hy : y ∈ seen
    · rw [dedupSeen, if_pos hy, ih]
      constructor
      · rintro ⟨hx, hs⟩
        exact ⟨List.mem_cons_of_mem _ hx, hs⟩
      · rintro ⟨hx, hs⟩
        rcases List.mem_cons.mp hx with rfl | hx
        · exact absurd hy hs
        · exact ⟨hx, hs⟩
    · rw [dedupSeen, if_neg hy]
      constructor
      · intro hx
        rcases List.mem_cons.mp hx with rfl | hx
        · exact ⟨List.mem_cons_self _ _, hy⟩
        · rcases ih.mp hx with ⟨h1, h2⟩
          refine ⟨List.mem_cons_of_mem _ h1, fun hs => h2 ?_⟩
          exact List.mem_cons_of_mem _ hs
      · rintro ⟨hx, hs⟩
        rcases List.mem_cons.mp hx with rfl | hx
        · exact List.mem_cons_self _ _
        · by_cases hxy : x = y
          · subst hxy; exact List.mem_cons_self _ _
          · refine List.mem_cons_of_mem _ (ih.mpr ⟨hx, fun hm => ?_⟩)
            rcases List.mem_cons.mp hm with h | h
            · exact hxy h
            · exact hs h

theorem nodup_dedupSeen : ∀ (seen l : List String), (dedupSeen seen l).Nodup := by
  intro seen l
  induction l generalizing seen with
  | nil => simp [dedupSeen]
  | cons y ys ih =>
    by_cases hy : y ∈ seen
    · rw [dedupSeen, if_pos hy]; exact ih seen
    · rw [dedupSeen, if_neg hy]
      refine List.nodup_cons.mpr ⟨fun hmem => ?_, ih _⟩
      rcases mem_dedupSeen.mp hmem with ⟨_, hns⟩
      exact hns (List.mem_cons_self _ _)

theorem dedupSeen_eq_self : ∀ (seen l : List String), l.Nodup →
    (∀ x ∈ l, x ∉ seen) → dedupSeen seen l = l := by
  intro seen l
  induction l generalizing seen with
  | nil => intro _ _; rfl
  | cons y ys ih =>
    intro hnd hs
    have hy : y ∉ seen := hs y (List.mem_cons_self _ _)
    rw [dedupSeen, if_neg hy]
    congr 1
    refine ih _ (List.nodup_cons.mp hnd).2 ?_
    intro x hx hmem
    rcases List.mem_cons.mp hmem with rfl | hmem
    · exact (List.nodup_cons.mp hnd).1 hx
    · exact hs x (List.mem_cons_of_mem _ hx) hmem

theorem nodup_dedupKeepFirst (l : List String) : (dedupKeepFirst l).Nodup :=
  nodup_dedupSeen [] l

theorem mem_dedupKeepFirst {x : String} {l : List String} :
    x ∈ dedupKeepFirst l ↔ x ∈ l := by
  rw [dedupKeepFirst, mem_dedupSeen]
  simp

theorem dedupKeepFirst_eq_self {l : List String} (h : l.Nodup) :
    dedupKeepFirst l = l :=
  dedupSeen_eq_self [] l h (by simp)

theorem chunksFuel_congr {k : Nat} :
    ∀ (f₁ f₂ : Nat) (l : List α), l.length ≤ f₁ → l.length ≤ f₂ →
      chunksFuel k f₁ l = chunksFuel k f₂ l := by
  intro f₁
  induction f₁ with
  | zero =>
    intro f₂ l h1 _
    have : l = [] := List.eq_nil_of_length_eq_zero (Nat.le_zero.mp h1)
    subst this
    cases f₂ <;> rfl
  | succ f ih =>
    intro f₂ l h1 h2
    cases l with
    | nil => cases f₂ <;> rfl
    | cons x xs =>
      cases f₂ with
      | zero => simp at h2
      | succ f₂ =>
        by_cases hk : k = 0
        · simp [chunksFuel, hk]
        · rw [chunksFuel, chunksFuel, if_neg hk, if_neg hk]
          congr 1
          have hd : ((x :: xs).drop k).length ≤ f := by
            simp only [List.length_drop, List.length_cons] at *
            omega
          have hd2 : ((x :: xs).drop k).length ≤ f₂ := by
            simp only [List.length_drop, List.length_cons] at *
            omega
          exact ih f₂ _ hd hd2

theorem chunks_nil (k : Nat) : chunks k ([] : List α) = [] := rfl

theorem chunks_cons {k : Nat} (hk : k ≠ 0) (x : α) (xs : List α) :
    chunks k (x :: xs) = ((x :: xs).take k) :: chunks k ((x :: xs).drop k) := by
  rw [chunks, List.length_cons, chunksFuel, if_neg hk, chunks]
  congr 1
  have hk1 : 1 ≤ k := Nat.one_le_iff_ne_zero.mpr hk
  exact chunksFuel_congr _ _ _
    (by simp only [List.length_drop, List.length_cons]; omega) (le_refl _)

theorem chunks_flatten {k : Nat} (hk : k ≠ 0) :
    ∀ l : List α, (chunks k l).flatten = l := by
  have aux : ∀ (n : Nat) (l : List α), l.length ≤ n → (chunks k l).flatten = l := by
    intro n
    induction n with
    | zero =>
      intro l h
      have : l = [] := List.eq_nil_of_length_eq_zero (Nat.le_zero.mp h)
      subst this
      rfl
    | succ n ih =>
      intro l h
      cases l with
      | nil => rfl
      | cons x xs =>
        rw [chunks_cons hk, List.flatten_cons]
        have hd : ((x :: xs).drop k).length ≤ n := by
          simp only [List.length_drop, List.length_cons] at *
          omega
        rw [ih _ hd]
        exact List.take_append_drop _ _
  intro l
  exact aux l.length l (le_refl _)

theorem chunks_singleton {k : Nat} (hk : k ≠ 0) (u : α) :
    chunks k [u] = [[u]] := by
  rw [chunks_cons hk]
  have h1 : ([u] : List α).take k = [u] :=
    List.take_of_length_le (by simpa using Nat.one_le_iff_ne_zero.mpr hk)
  have h2 : ([u] : List α).drop k = [] :=
    List.drop_eq_nil_of_le (by simpa using Nat.one_le_iff_ne_zero.mpr hk)
  rw [h1, h2, chunks_nil]

theorem cleanupScreenshots_eq_nil (dir : List String) :
    cleanupScreenshots dir = [] := by
  have aux : ∀ l : List String, List.foldl (fun d f => d.erase f) l l = [] := by
    intro l
    induction l with
    | nil => rfl
    | cons x xs ih =>
      simp only [List.foldl_cons, List.erase_cons_head]
      exact ih
  exact aux dir

/-! ### Effect lemmas for the page fetcher -/

theorem collectPageLinks_nodup (env : Env) (url baseUrl : String)
    (visited : List String) : (collectPageLinks env url baseUrl visited).Nodup :=
  nodup_dedupKeepFirst _

theorem collectPageLinks_not_visited (env : Env) (url baseUrl : String)
    (visited : List String) :
    ∀ l ∈ collectPageLinks env url baseUrl visited, l ∉ visited := by
  intro l hl
  rw [collectPageLinks, mem_dedupKeepFirst] at hl
  rcases List.mem_filterMap.mp hl with ⟨href, _, hf⟩
  split at hf
  · exact absurd hf (by simp)
  · split at hf
    · exact absurd hf (by simp)
    · split at hf
      · rcases Option.some.inj hf with rfl
        rename_i hcond
        exact hcond.2
      · exact absurd hf (by simp)

theorem getBrowserInRun_spec (env : Env) (st : St) (res : Except String Nat)
    (st' : St) (h : getBrowserInRun env st = (res, st')) :
    st'.visited = st.visited ∧ st'.results = st.results ∧
    st'.frames = st.frames ∧ st'.connected = st.connected ∧
    st'.writeCount = st.writeCount ∧ st'.usedSitemap = st.usedSitemap ∧
    st'.shotsDir = st.shotsDir ∧ st'.pool.length ≥ st.pool.length ∧
    navsOf st'.events = navsOf st.events ∧
    fetchesOf st'.events = fetchesOf st.events ∧
    (∃ Δ, st'.events = st.events ++ Δ) := by
  simp only [getBrowserInRun] at h
  split at h
  · split at h
    · injection h with h1 h2
      subst h2
      refine ⟨rfl, rfl, rfl, rfl, rfl, rfl, rfl, le_refl _, rfl, rfl, [], by simp⟩
    · injection h with h1 h2
      subst h2
      refine ⟨rfl, rfl, rfl, rfl, rfl, rfl, rfl, by simp, ?_, ?_, ⟨_, rfl⟩⟩
      · rw [navsOf_append, navsOf_launch, List.append_nil]
      · rw [fetchesOf_append, fetchesOf_launch, List.append_nil]
  · injection h with h1 h2
    subst h2
    refine ⟨rfl, rfl, rfl, rfl, rfl, rfl, rfl, le_refl _, rfl, rfl, [], by simp⟩

theorem navsOf_append_fetch (evs : List Ev) (u : String) :
    navsOf (evs ++ [Ev.fetch u]) = navsOf evs := by
  rw [navsOf_append, navsOf_fetch, List.append_nil]

theorem fetchesOf_append_fetch (evs : List Ev) (u : String) :
    fetchesOf (evs ++ [Ev.fetch u]) = fetchesOf evs ++ [u] := by
  rw [fetchesOf_append, fetchesOf_fetch]

theorem navsOf_append_navigate (evs : List Ev) (u : String) :
    navsOf (evs ++ [Ev.navigate u]) = navsOf evs ++ [u] := by
  rw [navsOf_append, navsOf_navigate]

theorem fetchesOf_append_navigate (evs : List Ev) (u : String) :
    fetchesOf (evs ++ [Ev.navigate u]) = fetchesOf evs := by
  rw [fetchesOf_append, fetchesOf_navigate, List.append_nil]

/-- Composite effect lemma for `crawlPage`: the fields it leaves untouched,
the events it appends, the visited-set discipline (a URL is inserted exactly
when the prologue checks pass, before any navigation), and the shape of a
successfully returned result (its `url` field is the requested URL, its
`links` are deduplicated, unvisited, and only nonempty when the URL itself
was recorded as visited). -/
theorem crawlPage_spec (env : Env) (req : CrawlRequest) (url baseUrl : String)
    (cl : Bool) (st : St) (r : Except String CrawlResult) (st' : St)
    (h : crawlPage env req url baseUrl cl st = (r, st')) :
    st'.results = st.results ∧ st'.frames = st.frames ∧
    st'.connected = st.connected ∧ st'.writeCount = st.writeCount ∧
    st'.usedSitemap = st.usedSitemap ∧
    fetchesOf st'.events = fetchesOf st.events ++ [url] ∧
    (∃ Δ, st'.events = st.events ++ Δ) ∧
    ((st'.visited = st.visited ∧ navsOf st'.events = navsOf st.events) ∨
     (url ∉ st.visited ∧ st'.visited = st.visited ++ [url] ∧
       (navsOf st'.events = navsOf st.events ∨
        navsOf st'.events = navsOf st.events ++ [url]))) ∧
    (∀ res, r = Except.ok res →
       res.url = url ∧ res.links.Nodup ∧
       (∀ l ∈ res.links, l ∉ st'.visited) ∧
       (res.links = [] ∨ url ∈ st'.visited)) := by
  simp only [crawlPage] at h
  split at h
  · -- new URL(url) throws
    injection h with h1 h2
    subst h1
    subst h2
    refine ⟨rfl, rfl, rfl, rfl, rfl, fetchesOf_append_fetch _ _, ⟨_, rfl⟩,
      Or.inl ⟨rfl, navsOf_append_fetch _ _⟩, ?_⟩
    intro res hres
    simp at hres
  · -- parse succeeded
    rename_i urlObj _
    split at h
    · -- deny-listed hostname
      injection h with h1 h2
      subst h1
      subst h2
      refine ⟨rfl, rfl, rfl, rfl, rfl, fetchesOf_append_fetch _ _, ⟨_, rfl⟩,
        Or.inl ⟨rfl, navsOf_append_fetch _ _⟩, ?_⟩
      intro res hres
      injection hres with hres
      subst hres
      exact ⟨rfl, List.nodup_nil, by simp, Or.inl rfl⟩
    · split at h
      · -- already visited
        injection h with h1 h2
        subst h1
        subst h2
        refine ⟨rfl, rfl, rfl, rfl, rfl, fetchesOf_append_fetch _ _, ⟨_, rfl⟩,
          Or.inl ⟨rfl, navsOf_append_fetch _ _⟩, ?_⟩
        intro res hres
        injection hres with hres
        subst hres
        exact ⟨rfl, List.nodup_nil, by simp, Or.inl rfl⟩
      · -- fresh URL: visited.add, then getBrowser
        rename_i hnv
        split at h
        · -- getBrowser rejected
          rename_i e stb heq
          obtain ⟨hv, hr, hf, hc, hw, hu, hs, _, hnav, hfet, Δ, hev⟩ :=
            getBrowserInRun_spec _ _ _ _ heq
          injection h with h1 h2
          subst h1
          subst h2
          simp only at hv hr hf hc hw hu hnav hfet hev
          refine ⟨hr, hf, hc, hw, hu, ?_, ?_, ?_, ?_⟩
          · rw [hfet, fetchesOf_append_fetch]
          · exact ⟨[Ev.fetch url] ++ Δ, by rw [hev, List.append_assoc]⟩
          · refine Or.inr ⟨hnv, by rw [hv], Or.inl ?_⟩
            rw [hnav, navsOf_append_fetch]
          · intro res hres
            simp at hres
        · -- getBrowser succeeded
          rename_i b stb heq
          obtain ⟨hv, hr, hf, hc, hw, hu, hs, _, hnav, hfet, Δ, hev⟩ :=
            getBrowserInRun_spec _ _ _ _ heq
          simp only at hv hr hf hc hw hu hs hnav hfet hev
          -- `browser.newPage()` precedes the try and may reject
          split at h
          · injection h with h1 h2
            subst h1
            subst h2
            refine ⟨hr, hf, hc, hw, hu, ?_, ?_, ?_, ?_⟩
            · rw [hfet, fetchesOf_append_fetch]
            · exact ⟨[Ev.fetch url] ++ Δ, by rw [hev, List.append_assoc]⟩
            · refine Or.inr ⟨hnv, by rw [hv], Or.inl ?_⟩
              rw [hnav, navsOf_append_fetch]
            · intro res hres
              simp at hres
          -- navigation event appended; case on the navigation outcome
          split at h
          · -- goto rejected: classified error result
            injection h with h1 h2
            subst h1
            subst h2
            refine ⟨hr, hf, hc, hw, hu, ?_, ?_, ?_, ?_⟩
            · simp only [fetchesOf_append_navigate, hfet, fetchesOf_append_fetch]
            · exact ⟨[Ev.fetch url] ++ Δ ++ [Ev.navigate url],
                by rw [hev]; simp [List.append_assoc]⟩
            · refine Or.inr ⟨hnv, by simp only [hv], Or.inr ?_⟩
              simp only [navsOf_append_navigate, hnav, navsOf_append_fetch]
            · intro res hres
              injection hres with hres
              subst hres
              refine ⟨rfl, List.nodup_nil, by simp, Or.inr ?_⟩
              simp only [hv]
              exact List.mem_append_right _ (List.mem_singleton.mpr rfl)
          · -- goto resolved; case on the status classification
            split at h
            · -- classified HTTP error
              injection h with h1 h2
              subst h1
              subst h2
              refine ⟨hr, hf, hc, hw, hu, ?_, ?_, ?_, ?_⟩
              · simp only [fetchesOf_append_navigate, hfet, fetchesOf_append_fetch]
              · exact ⟨[Ev.fetch url] ++ Δ ++ [Ev.navigate url],
                by rw [hev]; simp [List.append_assoc]⟩
              · refine Or.inr ⟨hnv, by simp only [hv], Or.inr ?_⟩
                simp only [navsOf_append_navigate, hnav, navsOf_append_fetch]
              · intro res hres
                injection hres with hres
                subst hres
                refine ⟨rfl, List.nodup_nil, by simp, Or.inr ?_⟩
                simp only [hv]
                exact List.mem_append_right _ (List.mem_singleton.mpr rfl)
            · -- no classified error; anti-bot check
              split at h
              · -- anti-bot challenge detected
                injection h with h1 h2
                subst h1
                subst h2
                refine ⟨hr, hf, hc, hw, hu, ?_, ?_, ?_, ?_⟩
                · simp only [fetchesOf_append_navigate, hfet, fetchesOf_append_fetch]
                · exact ⟨[Ev.fetch url] ++ Δ ++ [Ev.navigate url],
                by rw [hev]; simp [List.append_assoc]⟩
                · refine Or.inr ⟨hnv, by simp only [hv], Or.inr ?_⟩
                  simp only [navsOf_append_navigate, hnav, navsOf_append_fetch]
                · intro res hres
                  injection hres with hres
                  subst hres
                  refine ⟨rfl, List.nodup_nil, by simp, Or.inr ?_⟩
                  simp only [hv]
                  exact List.mem_append_right _ (List.mem_singleton.mpr rfl)
              · -- success path (screenshot / links / accessibility)
                by_cases hts : req.takeScreenshots <;>
                  [skip; (simp only [hts, if_false, Bool.false_eq_true] at h)]
                · by_cases hsf : env.shotFails url <;>
                    simp only [hts, hsf, if_true, if_false, Bool.false_eq_true,
                      Bool.true_eq_false, ite_true, ite_false] at h <;>
                  · injection h with h1 h2
                    subst h1
                    subst h2
                    refine ⟨hr, hf, hc, hw, hu, ?_, ?_, ?_, ?_⟩
                    · simp only [fetchesOf_append_navigate, hfet, fetchesOf_append_fetch]
                    · exact ⟨[Ev.fetch url] ++ Δ ++ [Ev.navigate url],
                        by rw [hev]; simp [List.append_assoc]⟩
                    · refine Or.inr ⟨hnv, by simp only [hv], Or.inr ?_⟩
                      simp only [navsOf_append_navigate, hnav, navsOf_append_fetch]
                    · intro res hres
                      injection hres with hres
                      subst hres
                      refine ⟨rfl, ?_, ?_, Or.inr ?_⟩
                      · cases cl
                        · exact List.nodup_nil
                        · exact collectPageLinks_nodup _ _ _ _
                      · intro l hl
                        cases cl
                        · simp at hl
                        · exact collectPageLinks_not_visited _ _ _ _ l hl
                      · simp only [hv]
                        exact List.mem_append_right _ (List.mem_singleton.mpr rfl)
                · injection h with h1 h2
                  subst h1
                  subst h2
                  refine ⟨hr, hf, hc, hw, hu, ?_, ?_, ?_, ?_⟩
                  · simp only [fetchesOf_append_navigate, hfet, fetchesOf_append_fetch]
                  · exact ⟨[Ev.fetch url] ++ Δ ++ [Ev.navigate url],
                      by rw [hev]; simp [List.append_assoc]⟩
                  · refine Or.inr ⟨hnv, by simp only [hv], Or.inr ?_⟩
                    simp only [navsOf_append_navigate, hnav, navsOf_append_fetch]
                  · intro res hres
                    injection hres with hres
                    subst hres
                    refine ⟨rfl, ?_, ?_, Or.inr ?_⟩
                    · cases cl
                      · exact List.nodup_nil
                      · exact collectPageLinks_nodup _ _ _ _
                    · intro l hl
                      cases cl
                      · simp at hl
                      · exact collectPageLinks_not_visited _ _ _ _ l hl
                    · simp only [hv]
                      exact List.mem_append_right _ (List.mem_singleton.mpr rfl)


theorem fetchWrapped_spec (env : Env) (req : CrawlRequest) (baseUrl : String)
    (guard : Bool) (url : String) (st : St) (ro : Option CrawlResult) (st' : St)
    (h : fetchWrapped env req baseUrl guard url st = (ro, st')) :
    st'.results = st.results ∧ st'.frames = st.frames ∧
    st'.connected = st.connected ∧ st'.writeCount = st.writeCount ∧
    st'.usedSitemap = st.usedSitemap ∧
    (∃ Δ, st'.events = st.events ++ Δ) ∧
    ((st'.visited = st.visited ∧ navsOf st'.events = navsOf st.events) ∨
     (url ∉ st.visited ∧ st'.visited = st.visited ++ [url] ∧
       (navsOf st'.events = navsOf st.events ∨
        navsOf st'.events = navsOf st.events ++ [url]))) ∧
    (∃ fsub, fetchesOf st'.events = fetchesOf st.events ++ fsub ∧
       fsub.Sublist [url]) ∧
    ((guard = false ∨ url ∉ st.visited) →
       fetchesOf st'.events = fetchesOf st.events ++ [url] ∧ ∃ r, ro = some r) ∧
    (∀ r, ro = some r → r.url = url ∧ r.links.Nodup ∧
       (∀ l ∈ r.links, l ∉ st'.visited) ∧ (r.links = [] ∨ url ∈ st'.visited)) := by
  simp only [fetchWrapped] at h
  split at h
  · -- guard hit: URL already visited, no call at all
    rename_i hcond
    injection h with h1 h2
    subst h1
    subst h2
    refine ⟨rfl, rfl, rfl, rfl, rfl, ⟨[], by simp⟩, Or.inl ⟨rfl, rfl⟩,
      ⟨[], by simp, List.nil_sublist _⟩, ?_, ?_⟩
    · rintro (hg | hg)
      · rw [hg] at hcond
        simp at hcond
      · exact absurd hcond.2 hg
    · intro r hr
      simp at hr
  · -- crawlPage invoked
    rcases hcp : crawlPage env req url baseUrl true st with ⟨cr, cst⟩
    rw [hcp] at h
    obtain ⟨h1, h2, h3, h4, h5, h6, h7, h8, h9⟩ :=
      crawlPage_spec env req url baseUrl true st cr cst hcp
    split at h
    · -- the 180 s page timer won the race
      injection h with ha hb
      subst ha
      subst hb
      refine ⟨h1, h2, h3, h4, h5, h7, h8,
        ⟨[url], h6, List.Sublist.refl _⟩, ?_, ?_⟩
      · intro _
        exact ⟨h6, ⟨_, rfl⟩⟩
      · intro r hr
        injection hr with hr
        subst hr
        exact ⟨rfl, List.nodup_nil, by simp, Or.inl rfl⟩
    · -- the crawl promise settled first
      split at h
      · -- resolved: the crawl result is used
        rename_i res heq
        injection h with ha hb
        subst ha
        subst hb
        refine ⟨h1, h2, h3, h4, h5, h7, h8,
          ⟨[url], h6, List.Sublist.refl _⟩, ?_, ?_⟩
        · intro _
          exact ⟨h6, ⟨_, rfl⟩⟩
        · intro r hr
          injection hr with hr
          subst hr
          exact h9 _ heq
      · -- rejected: the catch converts it into an error result
        injection h with ha hb
        subst ha
        subst hb
        refine ⟨h1, h2, h3, h4, h5, h7, h8,
          ⟨[url], h6, List.Sublist.refl _⟩, ?_, ?_⟩
        · intro _
          exact ⟨h6, ⟨_, rfl⟩⟩
        · intro r hr
          injection hr with hr
          subst hr
          exact ⟨rfl, List.nodup_nil, by simp, Or.inl rfl⟩

theorem fetchWrapped_navOk (env : Env) (req : CrawlRequest) (baseUrl : String)
    (guard : Bool) (url : String) (st : St) (ro : Option CrawlResult) (st' : St)
    (h : fetchWrapped env req baseUrl guard url st = (ro, st'))
    (hok : NavOk st) : NavOk st' := by
  obtain ⟨_, _, _, _, _, _, hvis, _, _, _⟩ :=
    fetchWrapped_spec env req baseUrl guard url st ro st' h
  rcases hvis with ⟨hv, hn⟩ | ⟨hnv, hv, hn⟩
  · constructor
    · rw [hn]; exact hok.1
    · intro u hu
      rw [hn] at hu
      rw [hv]
      exact hok.2 u hu
  · rcases hn with hn | hn
    · constructor
      · rw [hn]; exact hok.1
      · intro u hu
        rw [hn] at hu
        rw [hv]
        exact List.mem_append_left _ (hok.2 u hu)
    · constructor
      · rw [hn]
        refine List.Nodup.append hok.1 (List.nodup_singleton _) ?_
        intro a ha hb
        rw [List.mem_singleton] at hb
        subst hb
        exact hnv (hok.2 _ ha)
      · intro u hu
        rw [hn] at hu
        rw [hv]
        rcases List.mem_append.mp hu with hu | hu
        · exact List.mem_append_left _ (hok.2 u hu)
        · rw [List.mem_singleton] at hu
          subst hu
          exact List.mem_append_right _ (List.mem_singleton.mpr rfl)

theorem runWave_spec (env : Env) (req : CrawlRequest) (baseUrl : String)
    (guard : Bool) :
    ∀ (c : List String) (st : St) (rs : List CrawlResult) (st' : St),
      runWave env req baseUrl guard c st = (rs, st') →
      st'.results = st.results ∧ st'.frames = st.frames ∧
      st'.connected = st.connected ∧ st'.writeCount = st.writeCount ∧
      st'.usedSitemap = st.usedSitemap ∧
      (∃ Δ, st'.events = st.events ++ Δ) ∧
      (∃ ext, st'.visited = st.visited ++ ext) ∧
      (∃ fsub, fetchesOf st'.events = fetchesOf st.events ++ fsub ∧
         fsub.Sublist c) ∧
      (rs.map (fun r => r.url)).Sublist c ∧
      (guard = false → rs.map (fun r => r.url) = c ∧
         fetchesOf st'.events = fetchesOf st.events ++ c) := by
  intro c
  induction c with
  | nil =>
    intro st rs st' h
    injection h with h1 h2
    subst h1
    subst h2
    exact ⟨rfl, rfl, rfl, rfl, rfl, ⟨[], by simp⟩, ⟨[], by simp⟩,
      ⟨[], by simp, List.Sublist.refl _⟩, by simp, fun _ => ⟨rfl, by simp⟩⟩
  | cons u us ih =>
    intro st rs st' h
    simp only [runWave] at h
    rcases hfw : fetchWrapped env req baseUrl guard u st with ⟨ro, st1⟩
    rw [hfw] at h
    rcases hrw : runWave env req baseUrl guard us st1 with ⟨rs2, st2⟩
    rw [hrw] at h
    injection h with h1 h2
    subst h1
    subst h2
    obtain ⟨f1, f2, f3, f4, f5, ⟨Δ1, fe⟩, fvis, ⟨fs1, ffet, fsub1⟩, fguard, fok⟩ :=
      fetchWrapped_spec env req baseUrl guard u st ro st1 hfw
    obtain ⟨w1, w2, w3, w4, w5, ⟨Δ2, we⟩, ⟨ext2, wv⟩, ⟨ws1, wfet, wsub1⟩, wmap, wguard⟩ :=
      ih st1 rs2 st2 hrw
    have hvisext : ∃ ext, st1.visited = st.visited ++ ext := by
      rcases fvis with ⟨hv, _⟩ | ⟨_, hv, _⟩
      · exact ⟨[], by simp [hv]⟩
      · exact ⟨[u], hv⟩
    refine ⟨by rw [w1, f1], by rw [w2, f2], by rw [w3, f3], by rw [w4, f4],
      by rw [w5, f5], ⟨Δ1 ++ Δ2, by rw [we, fe, List.append_assoc]⟩, ?_, ?_, ?_, ?_⟩
    · rcases hvisext with ⟨ext1, hv1⟩
      exact ⟨ext1 ++ ext2, by rw [wv, hv1, List.append_assoc]⟩
    · refine ⟨fs1 ++ ws1, by rw [wfet, ffet, List.append_assoc], ?_⟩
      exact fsub1.append wsub1
    · cases ro with
      | none =>
        simp only [Option.toList, List.nil_append]
        exact List.Sublist.cons u wmap
      | some r =>
        have hurl : r.url = u := (fok r rfl).1
        simp only [Option.toList, List.map_cons, List.singleton_append,
          List.map, hurl]
        exact List.Sublist.cons₂ u wmap
    · intro hg
      obtain ⟨hfet1, r, hro⟩ := fguard (Or.inl hg)
      obtain ⟨hmap2, hfet2⟩ := wguard hg
      subst hro
      have hurl : r.url = u := (fok r rfl).1
      constructor
      · simp only [Option.toList, List.singleton_append, List.map_cons, hurl, hmap2]
      · rw [hfet2, hfet1, List.append_assoc]
        rfl

theorem runWave_navOk (env : Env) (req : CrawlRequest) (baseUrl : String)
    (guard : Bool) :
    ∀ (c : List String) (st : St) (rs : List CrawlResult) (st' : St),
      runWave env req baseUrl guard c st = (rs, st') →
      NavOk st → NavOk st' := by
  intro c
  induction c with
  | nil =>
    intro st rs st' h hok
    injection h with _ h2
    subst h2
    exact hok
  | cons u us ih =>
    intro st rs st' h hok
    simp only [runWave] at h
    rcases hfw : fetchWrapped env req baseUrl guard u st with ⟨ro, st1⟩
    rw [hfw] at h
    rcases hrw : runWave env req baseUrl guard us st1 with ⟨rs2, st2⟩
    rw [hrw] at h
    injection h with _ h2
    subst h2
    exact ih st1 rs2 st2 hrw
      (fetchWrapped_navOk env req baseUrl guard u st ro st1 hfw hok)

theorem writeFrame_fields (env : Env) (f : Frame) (st : St) :
    (writeFrame env f st).visited = st.visited ∧
    (writeFrame env f st).results = st.results ∧
    (writeFrame env f st).events = st.events ∧
    (writeFrame env f st).pool = st.pool ∧
    (writeFrame env f st).usedSitemap = st.usedSitemap ∧
    (writeFrame env f st).shotsDir = st.shotsDir ∧
    (writeFrame env f st).launchCount = st.launchCount := by
  rw [writeFrame]
  split
  · exact ⟨rfl, rfl, rfl, rfl, rfl, rfl, rfl⟩
  · split
    · exact ⟨rfl, rfl, rfl, rfl, rfl, rfl, rfl⟩
    · exact ⟨rfl, rfl, rfl, rfl, rfl, rfl, rfl⟩

theorem writeFrame_ok (env : Env) (f : Frame) (st : St)
    (hc : st.connected = true) (hw : env.writeFails st.writeCount = false) :
    writeFrame env f st =
      { st with frames := st.frames ++ [f], writeCount := st.writeCount + 1 } := by
  rw [writeFrame, if_neg (by rw [hc]; simp), if_neg (by rw [hw]; simp)]

theorem writeFrame_connected (env : Env) (f : Frame) (st : St)
    (hc : st.connected = true) (hw : env.writeFails st.writeCount = false) :
    (writeFrame env f st).connected = true := by
  rw [writeFrame_ok env f st hc hw]
  exact hc

theorem writeFrame_frames (env : Env) (f : Frame) (st : St)
    (hc : st.connected = true) (hw : env.writeFails st.writeCount = false) :
    (writeFrame env f st).frames = st.frames ++ [f] := by
  rw [writeFrame_ok env f st hc hw]

theorem writeFrame_navOk (env : Env) (f : Frame) (st : St) (hok : NavOk st) :
    NavOk (writeFrame env f st) := by
  obtain ⟨hv, _, he, _, _, _, _⟩ := writeFrame_fields env f st
  exact ⟨by rw [he]; exact hok.1, by rw [he, hv]; exact hok.2⟩

theorem progressConcat_nil : progressConcat [] = [] := rfl

theorem newLinksLoop_nil (env : Env) (req : CrawlRequest) (baseUrl : String)
    (total : Nat) (st : St) : newLinksLoop env req baseUrl total [] st = st := rfl

theorem newLinksLoop_frames (env : Env) (req : CrawlRequest) (baseUrl : String)
    (total : Nat) (hwf : ∀ n, env.writeFails n = false) :
    ∀ (cs : List (List String)) (st : St), st.connected = true →
      ∃ Δ, (newLinksLoop env req baseUrl total cs st).frames = st.frames ++ Δ ∧
        (newLinksLoop env req baseUrl total cs st).results =
          st.results ++ progressConcat Δ ∧
        (∀ f ∈ Δ, f.isFinal = false) ∧
        (newLinksLoop env req baseUrl total cs st).connected = true := by
  intro cs
  induction cs with
  | nil =>
    intro st hc
    exact ⟨[], by rw [newLinksLoop_nil, List.append_nil],
      by rw [newLinksLoop_nil, progressConcat_nil, List.append_nil],
      by simp, by rw [newLinksLoop_nil, hc]⟩
  | cons c cs ih =>
    intro st hc
    rw [newLinksLoop, if_neg (by rw [hc]; simp)]
    rcases hrw : runWave env req baseUrl false c st with ⟨rs, st1⟩
    obtain ⟨w1, w2, w3, _, _, _, _, _, _, _⟩ :=
      runWave_spec env req baseUrl false c st rs st1 hrw
    have hc1 : st1.connected = true := by rw [w3, hc]
    simp only [hrw]
    split
    · -- batch timer fired: error frame, results discarded
      have hw2 := writeFrame_connected env
        (Frame.error "Error processing batch: New batch processing timeout"
          (some (st1.results.length, total))) st1 hc1 (hwf _)
      obtain ⟨Δ, hfr, hre, hnf, hcn⟩ := ih _ hw2
      refine ⟨Frame.error "Error processing batch: New batch processing timeout"
          (some (st1.results.length, total)) :: Δ, ?_, ?_, ?_, hcn⟩
      · rw [hfr, writeFrame_frames env _ st1 hc1 (hwf _), w2]
        simp [List.append_assoc]
      · rw [hre, (writeFrame_fields env _ st1).2.1, w1]
        rfl
      · intro f hf
        rcases List.mem_cons.mp hf with rfl | hf
        · rfl
        · exact hnf f hf
    · -- results appended and emitted as the wave frame
      have hw2 := writeFrame_connected env
        (Frame.progress rs (some false) req.checkAccessibility
          (some ((st1.results ++ rs).length, total)))
        { st1 with results := st1.results ++ rs } hc1 (hwf _)
      obtain ⟨Δ, hfr, hre, hnf, hcn⟩ := ih _ hw2
      refine ⟨Frame.progress rs (some false) req.checkAccessibility
          (some ((st1.results ++ rs).length, total)) :: Δ, ?_, ?_, ?_, hcn⟩
      · rw [hfr, writeFrame_frames env
          (Frame.progress rs (some false) req.checkAccessibility
            (some ((st1.results ++ rs).length, total)))
          { st1 with results := st1.results ++ rs } hc1 (hwf _)]
        simp [w2, List.append_assoc]
      · rw [hre, (writeFrame_fields env
          (Frame.progress rs (some false) req.checkAccessibility
            (some ((st1.results ++ rs).length, total)))
          { st1 with results := st1.results ++ rs }).2.1]
        simp [progressConcat, w1, List.append_assoc]
      · intro f hf
        rcases List.mem_cons.mp hf with rfl | hf
        · rfl
        · exact hnf f hf

theorem progressConcat_append (a b : List Frame) :
    progressConcat (a ++ b) = progressConcat a ++ progressConcat b := by
  induction a with
  | nil => simp [progressConcat]
  | cons f fs ih =>
    cases f <;> simp [progressConcat, ih, List.append_assoc]

theorem outerLoop_nil (env : Env) (req : CrawlRequest) (baseUrl : String)
    (usedSm : Bool) (totalUrls n : Nat) (st : St) :
    outerLoop env req baseUrl usedSm totalUrls [] n st = st := rfl

theorem outerLoop_frames (env : Env) (req : CrawlRequest) (baseUrl : String)
    (usedSm : Bool) (totalUrls : Nat) (hwf : ∀ n, env.writeFails n = false) :
    ∀ (cs : List (List String)) (n : Nat) (st : St), st.connected = true →
      ∃ Δ, (outerLoop env req baseUrl usedSm totalUrls cs n st).frames =
          st.frames ++ Δ ∧
        (outerLoop env req baseUrl usedSm totalUrls cs n st).results =
          st.results ++ progressConcat Δ ∧
        (∀ f ∈ Δ, f.isFinal = false) ∧
        (outerLoop env req baseUrl usedSm totalUrls cs n st).connected = true := by
  intro cs
  induction cs with
  | nil =>
    intro n st hc
    exact ⟨[], by rw [outerLoop_nil, List.append_nil],
      by rw [outerLoop_nil, progressConcat_nil, List.append_nil],
      by simp, by rw [outerLoop_nil, hc]⟩
  | cons c cs ih =>
    intro n st hc
    rw [outerLoop, if_neg (by rw [hc]; simp)]
    rcases hrw : runWave env req baseUrl true c st with ⟨rs, st1⟩
    obtain ⟨w1, w2, w3, _, _, _, _, _, _, _⟩ :=
      runWave_spec env req baseUrl true c st rs st1 hrw
    have hc1 : st1.connected = true := by rw [w3, hc]
    simp only [hrw]
    split
    · -- outer batch timer fired
      have hw2 := writeFrame_connected env
        (Frame.error "Error processing batch: Batch processing timeout"
          (some (st1.results.length, totalUrls))) st1 hc1 (hwf _)
      obtain ⟨Δ, hfr, hre, hnf, hcn⟩ := ih _ _ hw2
      refine ⟨Frame.error "Error processing batch: Batch processing timeout"
          (some (st1.results.length, totalUrls)) :: Δ, ?_, ?_, ?_, hcn⟩
      · rw [hfr, writeFrame_frames env _ st1 hc1 (hwf _), w2]
        simp [List.append_assoc]
      · rw [hre, (writeFrame_fields env _ st1).2.1, w1]
        rfl
      · intro f hf
        rcases List.mem_cons.mp hf with rfl | hf
        · rfl
        · exact hnf f hf
    · -- wave results pushed and emitted
      have hw3 := writeFrame_connected env
        (Frame.progress rs (some usedSm) req.checkAccessibility
          (some (n + c.length, totalUrls)))
        { st1 with results := st1.results ++ rs } hc1 (hwf _)
      have hfr3 := writeFrame_frames env
        (Frame.progress rs (some usedSm) req.checkAccessibility
          (some (n + c.length, totalUrls)))
        { st1 with results := st1.results ++ rs } hc1 (hwf _)
      have hre3 := (writeFrame_fields env
        (Frame.progress rs (some usedSm) req.checkAccessibility
          (some (n + c.length, totalUrls)))
        { st1 with results := st1.results ++ rs }).2.1
      split
      · -- sitemap mode: no harvest
        obtain ⟨Δ, hfr, hre, hnf, hcn⟩ := ih _ _ hw3
        refine ⟨Frame.progress rs (some usedSm) req.checkAccessibility
            (some (n + c.length, totalUrls)) :: Δ, ?_, ?_, ?_, hcn⟩
        · rw [hfr, hfr3]
          simp [w2, List.append_assoc]
        · rw [hre, hre3]
          simp [progressConcat, w1, List.append_assoc]
        · intro f hf
          rcases List.mem_cons.mp hf with rfl | hf
          · rfl
          · exact hnf f hf
      · -- recursive mode: harvested waves run before the next outer batch
        obtain ⟨Δn, hfrN, hreN, hnfN, hcnN⟩ :=
          newLinksLoop_frames env req baseUrl _ hwf _ _ hw3
        obtain ⟨Δo, hfrO, hreO, hnfO, hcnO⟩ := ih _ _ hcnN
        refine ⟨Frame.progress rs (some usedSm) req.checkAccessibility
            (some (n + c.length, totalUrls)) :: (Δn ++ Δo), ?_, ?_, ?_, hcnO⟩
        · rw [hfrO, hfrN, hfr3]
          simp [w2, List.append_assoc]
        · rw [hreO, hreN, hre3]
          simp [progressConcat, progressConcat_append, w1, List.append_assoc]
        · intro f hf
          rcases List.mem_cons.mp hf with rfl | hf
          · rfl
          · rcases List.mem_append.mp hf with hf | hf
            · exact hnfN f hf
            · exact hnfO f hf

theorem closeAllInRun_fields (env : Env) (st : St) :
    (closeAllInRun env st).frames = st.frames ∧
    (closeAllInRun env st).results = st.results ∧
    (closeAllInRun env st).visited = st.visited ∧
    (closeAllInRun env st).pool = [] ∧
    (closeAllInRun env st).usedSitemap = st.usedSitemap ∧
    (closeAllInRun env st).connected = st.connected ∧
    Ev.closeAll ∈ (closeAllInRun env st).events ∧
    navsOf (closeAllInRun env st).events = navsOf st.events ∧
    fetchesOf (closeAllInRun env st).events = fetchesOf st.events ∧
    (∃ Δ, (closeAllInRun env st).events = st.events ++ Δ) := by
  refine ⟨rfl, rfl, rfl, rfl, rfl, rfl, ?_, ?_, ?_,
    ⟨(st.pool.map (fun b => Ev.closeAttempt b (env.closeFails b))) ++ [Ev.closeAll],
      by simp [closeAllInRun, List.append_assoc]⟩⟩
  · simp [closeAllInRun]
  · simp only [closeAllInRun, navsOf_append]
    have h1 : navsOf (st.pool.map (fun b => Ev.closeAttempt b (env.closeFails b))) = [] := by
      induction st.pool with
      | nil => rfl
      | cons p ps _ => simp [navsOf]
    have h2 : navsOf [Ev.closeAll] = [] := rfl
    rw [h1, h2]
    simp
  · simp only [closeAllInRun, fetchesOf_append]
    have h1 : fetchesOf (st.pool.map (fun b => Ev.closeAttempt b (env.closeFails b))) = [] := by
      induction st.pool with
      | nil => rfl
      | cons p ps _ => simp [fetchesOf]
    have h2 : fetchesOf [Ev.closeAll] = [] := rfl
    rw [h1, h2]
    simp

theorem cleanupPhase_fields (req : CrawlRequest) (st0 : St) :
    (cleanupPhase req st0).visited = st0.visited ∧
    (cleanupPhase req st0).results = st0.results ∧
    (cleanupPhase req st0).frames = st0.frames ∧
    (cleanupPhase req st0).pool = st0.pool ∧
    (cleanupPhase req st0).usedSitemap = st0.usedSitemap ∧
    (cleanupPhase req st0).connected = st0.connected ∧
    (cleanupPhase req st0).writeCount = st0.writeCount ∧
    (cleanupPhase req st0).launchCount = st0.launchCount ∧
    navsOf (cleanupPhase req st0).events = navsOf st0.events ∧
    fetchesOf (cleanupPhase req st0).events = fetchesOf st0.events ∧
    (∃ Δ, (cleanupPhase req st0).events = st0.events ++ Δ ∧
       navsOf Δ = [] ∧ fetchesOf Δ = []) := by
  rw [cleanupPhase]
  split <;> split <;>
    refine ⟨rfl, rfl, rfl, rfl, rfl, rfl, rfl, rfl, ?_, ?_, ?_⟩ <;>
    simp [navsOf, fetchesOf, List.filterMap_append, List.append_assoc]

theorem crawlBody_frames (env : Env) (req : CrawlRequest) (baseUrl : String)
    (hwf : ∀ n, env.writeFails n = false) (hcw : req.crawlEntireWebsite = true)
    (st : St) (hc : st.connected = true) :
    ∃ Δ b, (crawlBody env req baseUrl st).frames =
        st.frames ++ Δ ++
          [Frame.final (st.results ++ progressConcat Δ) (some b)
            req.checkAccessibility] ∧
      (crawlBody env req baseUrl st).results = st.results ++ progressConcat Δ ∧
      (∀ f ∈ Δ, f.isFinal = false) := by
  rw [crawlBody, if_pos (by rw [hcw])]
  simp only [getSitemapUrls]
  generalize (if env.sitemapOk then dedupKeepFirst env.sitemapLocs else []) = sm
  generalize hug : (if sm.isEmpty then [req.url] else sm) = urls
  obtain ⟨Δ, hfr, hre, hnf, hcn⟩ :=
    outerLoop_frames env req baseUrl (!sm.isEmpty) urls.length hwf
      (chunks req.concurrentPages urls) 0
      { st with
          events := st.events ++ [Ev.sitemapFetch],
          usedSitemap := some (!sm.isEmpty) }
      hc
  refine ⟨Δ, !sm.isEmpty, ?_, ?_, hnf⟩
  · rw [writeFrame_frames env _ _ hcn (hwf _), hfr, hre]
  · rw [(writeFrame_fields env _ _).2.1, hre]

theorem POST_frames (env : Env) (req : CrawlRequest) (pool0 : List Nat)
    (shots0 : List String) (hwf : ∀ n, env.writeFails n = false)
    (hu : ¬ req.url = "") (uo : UrlObj) (hp : env.urlParse req.url = some uo)
    (hcw : req.crawlEntireWebsite = true) :
    ∃ Δ b, (POST env req pool0 shots0).frames =
        Δ ++ [Frame.final (POST env req pool0 shots0).results (some b)
          req.checkAccessibility] ∧
      progressConcat Δ = (POST env req pool0 shots0).results ∧
      (∀ f ∈ Δ, f.isFinal = false) := by
  obtain ⟨_, hres0, hfr0, _, _, hcon0, _, _, _, _, _⟩ :=
    cleanupPhase_fields req (initSt pool0 shots0)
  have hconn : (cleanupPhase req (initSt pool0 shots0)).connected = true := by
    rw [hcon0]
    rfl
  obtain ⟨ΔB, b, hbf, hbr, hbn⟩ :=
    crawlBody_frames env req uo.origin hwf hcw
      (cleanupPhase req (initSt pool0 shots0)) hconn
  have hpost : POST env req pool0 shots0 =
      closeAllInRun env
        (crawlBody env req uo.origin (cleanupPhase req (initSt pool0 shots0))) := by
    rw [POST, if_neg hu, hp]
  refine ⟨ΔB, b, ?_, ?_, hbn⟩
  · rw [hpost, (closeAllInRun_fields env _).1, (closeAllInRun_fields env _).2.1,
      hbf, hbr, hfr0, hres0]
    try simp [initSt]
  · rw [hpost, (closeAllInRun_fields env _).2.1, hbr, hres0]
    try simp [initSt]

/-! ### Claim theorems -/

/-- C1: for every multi-page crawl (full-site crawl with a parseable seed and
an uninterrupted client connection), each non-terminal progress frame carries
exactly the new crawl results produced by the wave just completed — their
concatenation in order is the aggregate result list, so no frame repeats the
accumulated set — and the run ends with exactly one terminal frame carrying
the full aggregate list; in particular, the 3-page sitemap crawl with
`concurrentPages = 1` yields exactly 3 progress frames of one new result
each followed by exactly 1 terminal frame with all 3 results. -/
theorem progress_frames_carry_exactly_new_wave_results :
    (∀ (env : Env) (req : CrawlRequest) (pool0 : List Nat)
        (shots0 : List String) (uo : UrlObj),
      (∀ n, env.writeFails n = false) → ¬ req.url = "" →
      env.urlParse req.url = some uo → req.crawlEntireWebsite = true →
      ∃ Δ b, (POST env req pool0 shots0).frames =
          Δ ++ [Frame.final (POST env req pool0 shots0).results (some b)
            req.checkAccessibility] ∧
        progressConcat Δ = (POST env req pool0 shots0).results ∧
        (∀ f ∈ Δ, f.isFinal = false)) ∧
    (POST env3 req3 [] []).frames =
      [Frame.progress [{ url := "http://s/1", links := [] }] (some true) false
         (some (1, 3)),
       Frame.progress [{ url := "http://s/2", links := [] }] (some true) false
         (some (2, 3)),
       Frame.progress [{ url := "http://s/3", links := [] }] (some true) false
         (some (3, 3)),
       Frame.final [{ url := "http://s/1", links := [] },
         { url := "http://s/2", links := [] },
         { url := "http://s/3", links := [] }] (some true) false] := by
  constructor
  · intro env req pool0 shots0 uo hwf hu hp hcw
    exact POST_frames env req pool0 shots0 hwf hu uo hp hcw
  · decide

/-- Witness for C1: the general frame decomposition applied to the concrete
3-page sitemap run. -/
theorem progress_frames_carry_exactly_new_wave_results_witness :
    ∃ Δ b, (POST env3 req3 [] []).frames =
        Δ ++ [Frame.final (POST env3 req3 [] []).results (some b)
          req3.checkAccessibility] ∧
      progressConcat Δ = (POST env3 req3 [] []).results ∧
      (∀ f ∈ Δ, f.isFinal = false) :=
  progress_frames_carry_exactly_new_wave_results.1 env3 req3 [] []
    { hostname := "s", origin := "http://s" } (fun _ => rfl) (by decide) rfl rfl

theorem newLinksLoop_clean (env : Env) (req : CrawlRequest) (baseUrl : String)
    (total : Nat) (hwf : ∀ n, env.writeFails n = false)
    (hbt : ∀ c, env.newBatchTimeout c = false) :
    ∀ (cs : List (List String)) (st : St), st.connected = true →
      ∃ R, (newLinksLoop env req baseUrl total cs st).results =
          st.results ++ R ∧
        R.map (fun r => r.url) = cs.flatten ∧
        fetchesOf (newLinksLoop env req baseUrl total cs st).events =
          fetchesOf st.events ++ cs.flatten := by
  intro cs
  induction cs with
  | nil =>
    intro st hc
    exact ⟨[], by rw [newLinksLoop_nil, List.append_nil], by simp,
      by rw [newLinksLoop_nil]; simp⟩
  | cons c cs ih =>
    intro st hc
    rw [newLinksLoop, if_neg (by rw [hc]; simp)]
    rcases hrw : runWave env req baseUrl false c st with ⟨rs, st1⟩
    obtain ⟨w1, _, w3, _, _, _, _, _, _, wguard⟩ :=
      runWave_spec env req baseUrl false c st rs st1 hrw
    obtain ⟨wmap, wfet⟩ := wguard rfl
    have hc1 : st1.connected = true := by rw [w3, hc]
    simp only [hrw]
    rw [if_neg (by rw [hbt c]; simp)]
    have hw2 := writeFrame_connected env
      (Frame.progress rs (some false) req.checkAccessibility
        (some ((st1.results ++ rs).length, total)))
      { st1 with results := st1.results ++ rs } hc1 (hwf _)
    obtain ⟨R, hre, hmap, hfet⟩ := ih _ hw2
    refine ⟨rs ++ R, ?_, ?_, ?_⟩
    · rw [hre, (writeFrame_fields env _ _).2.1]
      simp [w1, List.append_assoc]
    · rw [List.map_append, hmap, wmap, List.flatten_cons]
    · rw [hfet, (writeFrame_fields env _ _).2.2.1]
      show fetchesOf st1.events ++ cs.flatten = _
      rw [wfet, List.flatten_cons, List.append_assoc]

theorem runWave_singleton (env : Env) (req : CrawlRequest) (baseUrl : String)
    (guard : Bool) (u : String) (st : St) :
    runWave env req baseUrl guard [u] st =
      ((fetchWrapped env req baseUrl guard u st).1.toList,
       (fetchWrapped env req baseUrl guard u st).2) := by
  simp [runWave]

theorem fetchesOf_append_sitemapFetch (evs : List Ev) :
    fetchesOf (evs ++ [Ev.sitemapFetch]) = fetchesOf evs := by
  rw [fetchesOf_append]
  simp [fetchesOf]

theorem harvest_singleton (r : CrawlResult) (v : List String)
    (hnd : r.links.Nodup) (hnv : ∀ l ∈ r.links, l ∉ v) :
    harvest [r] v = r.links := by
  rw [harvest]
  have hfil : ((([r].map (fun r => r.links)).flatten).filter
      (fun l => decide (l ∉ v))) = r.links := by
    simp only [List.map_cons, List.map_nil, List.flatten_cons,
      List.flatten_nil, List.append_nil]
    refine List.filter_eq_self.mpr ?_
    intro l hl
    simp [hnv l hl]
  rw [hfil]
  exact dedupKeepFirst_eq_self hnd

theorem crawlBody_recursive_one_hop (env : Env) (req : CrawlRequest)
    (baseUrl : String) (st : St)
    (hwf : ∀ n, env.writeFails n = false)
    (hbt : ∀ c, env.batchTimeout c = false)
    (hnbt : ∀ c, env.newBatchTimeout c = false)
    (hk : req.concurrentPages ≠ 0)
    (hcw : req.crawlEntireWebsite = true)
    (hsm : (if env.sitemapOk then dedupKeepFirst env.sitemapLocs else []) = [])
    (hc : st.connected = true)
    (hres : st.results = [])
    (hvis : req.url ∉ st.visited) :
    ∃ r1 R, (crawlBody env req baseUrl st).results = r1 :: R ∧
      r1.url = req.url ∧
      fetchesOf (crawlBody env req baseUrl st).events =
        fetchesOf st.events ++ (req.url :: r1.links) ∧
      R.map (fun r => r.url) = r1.links := by
  rw [crawlBody, if_pos (by rw [hcw])]
  simp only [getSitemapUrls, hsm, List.isEmpty_nil, Bool.not_true, if_true]
  rw [chunks_singleton hk]
  rw [outerLoop, if_neg (by rw [hc]; simp)]
  rw [runWave_singleton]
  rcases hfw : fetchWrapped env req baseUrl true req.url
      { st with events := st.events ++ [Ev.sitemapFetch],
                usedSitemap := some false } with ⟨ro, st1⟩
  obtain ⟨f1, _, f3, _, _, _, _, _, ftrig, fok⟩ :=
    fetchWrapped_spec env req baseUrl true req.url _ ro st1 hfw
  obtain ⟨hfet1, r1, hro⟩ := ftrig (Or.inr hvis)
  subst hro
  obtain ⟨hurl, hlnd, hlnv, _⟩ := fok r1 rfl
  have hc1 : st1.connected = true := by rw [f3, hc]
  have hres1 : st1.results = [] := by
    rw [f1]
    exact hres
  simp only [hfw, Option.toList]
  rw [if_neg (by rw [hbt [req.url]]; simp)]
  have hw3 := writeFrame_connected env
    (Frame.progress [r1] (some false) req.checkAccessibility
      (some (0 + [req.url].length, [req.url].length)))
    { st1 with results := st1.results ++ [r1] } hc1 (hwf _)
  have hhv : harvest [r1]
      (writeFrame env
        (Frame.progress [r1] (some false) req.checkAccessibility
          (some (0 + [req.url].length, [req.url].length)))
        { st1 with results := st1.results ++ [r1] }).visited = r1.links := by
    rw [(writeFrame_fields env _ _).1]
    exact harvest_singleton r1 st1.visited hlnd hlnv
  rw [if_neg (show ¬(false = true) by simp), hhv]
  obtain ⟨R, hre, hmap, hfet⟩ :=
    newLinksLoop_clean env req baseUrl ([req.url].length + r1.links.length) hwf
      hnbt (chunks req.concurrentPages r1.links) _ hw3
  rw [outerLoop_nil]
  refine ⟨r1, R, ?_, hurl, ?_, ?_⟩
  · rw [(writeFrame_fields env _ _).2.1, hre, (writeFrame_fields env _ _).2.1]
    show ({ st1 with results := st1.results ++ [r1] } : St).results ++ R = _
    rw [hres1]
    rfl
  · rw [(writeFrame_fields env _ _).2.2.1, hfet,
      (writeFrame_fields env _ _).2.2.1]
    show fetchesOf st1.events ++ (chunks req.concurrentPages r1.links).flatten = _
    rw [chunks_flatten hk, hfet1, fetchesOf_append_sitemapFetch,
      List.append_assoc]
    rfl
  · rw [hmap, chunks_flatten hk]

/-- C2 counterexample: in the chained site (seed links to `/b`, `/b` links to
`/c`, all same-origin) the code fetches the seed and `/b` but never selects
`/c` for fetching, although `/c` is discovered in the crawl result of `/b`
(it appears in its `links`) — so a page at link depth two from the seed is
never fetched, refuting the claim that harvesting repeats until no new links
are found regardless of link depth. -/
theorem deep_link_never_crawled_cex :
    envC2.hrefs "http://a/b" = ["http://a/c"] ∧
    strStartsWith "http://a/c" "http://a" = true ∧
    (POST envC2 reqC2 [] []).results.map (fun r => r.url) =
      ["http://a/", "http://a/b"] ∧
    (∃ rb, rb ∈ (POST envC2 reqC2 [] []).results ∧ rb.url = "http://a/b" ∧
       rb.links = ["http://a/c"]) ∧
    "http://a/c" ∉ fetchesOf (POST envC2 reqC2 [] []).events := by
  refine ⟨rfl, rfl, by decide, ⟨{ url := "http://a/b", links := ["http://a/c"] },
    by decide, rfl, rfl⟩, by decide⟩

/-- C2 (amended): when `usedSitemap` is false, the orchestrator harvests
newly discovered same-origin links only from the waves of the initial URL
list; links discovered in those harvested waves are never harvested again.
For a clean full-site run without a sitemap the crawl therefore consists of
exactly the seed plus the links reported by the seed result, in order: the
fetch trace is the seed followed by the seed result link list, and the
remaining results are exactly those links — pages two or more hops from the
seed are not fetched. -/
theorem recursive_discovery_single_hop (env : Env) (req : CrawlRequest)
    (pool0 : List Nat) (shots0 : List String) (uo : UrlObj)
    (hwf : ∀ n, env.writeFails n = false)
    (hbt : ∀ c, env.batchTimeout c = false)
    (hnbt : ∀ c, env.newBatchTimeout c = false)
    (hk : req.concurrentPages ≠ 0)
    (hu : ¬ req.url = "")
    (hp : env.urlParse req.url = some uo)
    (hcw : req.crawlEntireWebsite = true)
    (hsm : (if env.sitemapOk then dedupKeepFirst env.sitemapLocs else []) = []) :
    ∃ r1 R, (POST env req pool0 shots0).results = r1 :: R ∧
      r1.url = req.url ∧
      fetchesOf (POST env req pool0 shots0).events = req.url :: r1.links ∧
      R.map (fun r => r.url) = r1.links := by
  obtain ⟨hvis0, hres0, _, _, _, hcon0, _, _, _, hfet0, _⟩ :=
    cleanupPhase_fields req (initSt pool0 shots0)
  have hpost : POST env req pool0 shots0 =
      closeAllInRun env
        (crawlBody env req uo.origin (cleanupPhase req (initSt pool0 shots0))) := by
    rw [POST, if_neg hu, hp]
  obtain ⟨r1, R, hre, hurl, hfet, hmap⟩ :=
    crawlBody_recursive_one_hop env req uo.origin
      (cleanupPhase req (initSt pool0 shots0)) hwf hbt hnbt hk hcw hsm
      (by rw [hcon0]; rfl) (by rw [hres0]; rfl) (by rw [hvis0]; simp [initSt])
  refine ⟨r1, R, ?_, hurl, ?_, hmap⟩
  · rw [hpost, (closeAllInRun_fields env _).2.1, hre]
  · rw [hpost, (closeAllInRun_fields env _).2.2.2.2.2.2.2.2.1, hfet, hfet0]
    show fetchesOf (initSt pool0 shots0).events ++ _ = _
    rfl

/-- Witness for the amended C2: the one-hop characterization applied to the
chained site: the crawl fetches the seed and then exactly its one link. -/
theorem recursive_discovery_single_hop_witness :
    ∃ r1 R, (POST envC2 reqC2 [] []).results = r1 :: R ∧
      r1.url = reqC2.url ∧
      fetchesOf (POST envC2 reqC2 [] []).events = reqC2.url :: r1.links ∧
      R.map (fun r => r.url) = r1.links :=
  recursive_discovery_single_hop envC2 reqC2 [] []
    { hostname := "a", origin := "http://a" } (fun _ => rfl) (fun _ => rfl)
    (fun _ => rfl) (by decide) (by decide) rfl rfl rfl

/-- C3: the conformance filter evaluated at the spec scenario.  With levels
`{A: true, AA: false, AAA: false}` the specification requires an outcome
tagged only `wcag2aa` to be excluded, but `filterByWcagLevel` retains it:
the first branch of the cascade tests `tag.endsWith("a")`, which is also
true of `wcag2aa` and `wcag2aaa`, so any wcag2-tagged outcome is retained as
soon as level A is enabled.  The `image-alt` outcome tagged `wcag2a` is
retained as well, so the scenario's filtered report keeps both violations
instead of only `image-alt`. -/
theorem filterByWcagLevel_keeps_wcag2aa_with_A_only :
    filterByWcagLevel { A := true, AA := false, AAA := false }
      { id := "color-contrast", tags := ["wcag2aa"] } = true ∧
    filterByWcagLevel { A := true, AA := false, AAA := false }
      { id := "image-alt", tags := ["wcag2a"] } = true ∧
    strEndsWith "wcag2aa" "a" = true := by
  decide

/-- Rejections of the `crawlPage` promise come only from its prologue: an
unparseable URL, a failed browser launch, or a rejected `browser.newPage()`
call on the acquired instance. -/
theorem crawlPage_error_inv (env : Env) (req : CrawlRequest)
    (url baseUrl : String) (cl : Bool) (st : St) (e : String) (st' : St)
    (h : crawlPage env req url baseUrl cl st = (Except.error e, st')) :
    env.urlParse url = none ∨
    (st.pool.length < MAX_BROWSER_INSTANCES ∧
      env.launchFails st.launchCount = true) ∨
    (∃ b, env.newPageFails b = some e) := by
  simp only [crawlPage] at h
  split at h
  · rename_i hparse
    exact Or.inl hparse
  · split at h
    · exact absurd h (by simp)
    · split at h
      · exact absurd h (by simp)
      · split at h
        · rename_i e2 stb heq
          simp only [getBrowserInRun] at heq
          split at heq
          · rename_i hlt
            split at heq
            · rename_i hlf
              exact Or.inr (Or.inl ⟨hlt, hlf⟩)
            · exact absurd heq (by simp)
          · exact absurd heq (by simp)
        · rename_i b stb heq
          split at h
          · rename_i m hnp
            injection h with h1 h2
            injection h1 with h1
            subst h1
            exact Or.inr (Or.inr ⟨b, hnp⟩)
          · split at h
            · exact absurd h (by simp)
            · split at h
              · exact absurd h (by simp)
              · split at h
                · exact absurd h (by simp)
                · exact absurd h (by simp)

/-- C7 counterexample: `crawlPage` propagates an exception to its caller
when the URL does not parse — `new URL(url)` (route.ts line 555, part_001
line 779) executes before the `try` block, so its throw rejects the
returned promise instead of being converted into an error result. -/
theorem crawlPage_throws_on_invalid_url_cex :
    (crawlPage cleanEnv reqC2 "not a url" "http://a" true (initSt [] [])).1 =
      Except.error "Invalid URL" := by
  rfl

/-- C7 (amended): `crawlPage` can propagate an exception only from its
prologue — URL parsing, browser acquisition and `browser.newPage()` precede
its `try` block; whenever the URL parses, the pool either is at capacity or
launches successfully, and page creation succeeds on the pooled instances,
`crawlPage` returns a result (every exception from navigation onwards is
caught and mapped into the result's `error` field), so such a page's
failure never aborts its batch. -/
theorem crawlPage_no_throw_after_prologue (env : Env) (req : CrawlRequest)
    (url baseUrl : String) (cl : Bool) (st : St)
    (hp : (env.urlParse url).isSome)
    (hl : st.pool.length < MAX_BROWSER_INSTANCES →
      env.launchFails st.launchCount = false)
    (hnp : ∀ b, env.newPageFails b = none) :
    ∃ r st', crawlPage env req url baseUrl cl st = (Except.ok r, st') := by
  rcases hcp : crawlPage env req url baseUrl cl st with ⟨cr, st2⟩
  rcases cr with e | r
  · rcases crawlPage_error_inv env req url baseUrl cl st e st2 hcp with
      hnone | ⟨hlt, hlf⟩ | ⟨b, hb⟩
    · rw [hnone] at hp
      simp at hp
    · rw [hl hlt] at hlf
      simp at hlf
    · rw [hnp b] at hb
      simp at hb
  · exact ⟨r, st2, rfl⟩

/-- Witness for the amended C7: a parseable URL on a fresh pool with a
working launcher and working page creation always yields a result. -/
theorem crawlPage_no_throw_after_prologue_witness :
    ∃ r st', crawlPage cleanEnv reqC2 "http://a/" "http://a" true
      (initSt [] []) = (Except.ok r, st') :=
  crawlPage_no_throw_after_prologue cleanEnv reqC2 "http://a/" "http://a" true
    (initSt [] []) (by decide) (fun _ => rfl) (fun _ => rfl)

/-- C8 counterexample: start a teardown on a pool holding one live instance
(`isCleaningUp` becomes true, the cleanup promise is pending) and call
`getBrowser` while it is in flight: instead of failing fast with the "pool
is draining" error, the call awaits the cleanup promise and then launches
and returns a fresh instance (id 6). -/
theorem getBrowser_returns_instance_during_drain_cex :
    (Pool.closeAllBrowsersStart
      { pool := [5], nextId := 6, cleaning := false, promise := false }).cleaning
        = true ∧
    (Pool.getBrowser (Pool.closeAllBrowsersStart
      { pool := [5], nextId := 6, cleaning := false, promise := false })).1
        = Except.ok 6 :=
  ⟨rfl, rfl⟩

/-- C8 (amended): a `getBrowser` call arriving while `closeAllBrowsers` is
in flight first awaits the pending cleanup promise and only then proceeds,
so it always returns an instance and never throws; the "pool is currently
being cleaned up" error is unreachable, because `isCleaningUp` is never
observably true while `cleanupPromise` is null (both are set and cleared
together with no suspension point in between). -/
theorem getBrowser_never_errors_during_drain (s : Pool.BPool)
    (hinv : s.cleaning = true → s.promise = true) :
    ∃ b s', Pool.getBrowser s = (Except.ok b, s') := by
  by_cases hp : s.promise = true
  · refine ⟨s.nextId, (Pool.getBrowser s).2, ?_⟩
    have h1 : (Pool.getBrowser s).1 = Except.ok s.nextId := by
      simp [Pool.getBrowser, hp, Pool.closeAllBrowsersFinish,
        MAX_BROWSER_INSTANCES]
    rw [← h1]
  · have hc : ¬ s.cleaning = true := fun h => hp (hinv h)
    by_cases hlen : s.pool.length < MAX_BROWSER_INSTANCES
    · refine ⟨s.nextId, (Pool.getBrowser s).2, ?_⟩
      have h1 : (Pool.getBrowser s).1 = Except.ok s.nextId := by
        simp [Pool.getBrowser, hp, hc, hlen]
      rw [← h1]
    · refine ⟨s.pool.getD (s.pool.length % MAX_BROWSER_INSTANCES) 0,
        (Pool.getBrowser s).2, ?_⟩
      have h1 : (Pool.getBrowser s).1 =
          Except.ok (s.pool.getD (s.pool.length % MAX_BROWSER_INSTANCES) 0) := by
        simp [Pool.getBrowser, hp, hc, hlen]
      rw [← h1]

/-- Witness for the amended C8: applied to the drain-in-flight state of the
counterexample. -/
theorem getBrowser_never_errors_during_drain_witness :
    ∃ b s', Pool.getBrowser (Pool.closeAllBrowsersStart
      { pool := [5], nextId := 6, cleaning := false, promise := false })
        = (Except.ok b, s') :=
  getBrowser_never_errors_during_drain _ (by decide)

theorem getBrowserInRun_ok (env : Env) (st : St)
    (hl : st.pool.length < MAX_BROWSER_INSTANCES →
      env.launchFails st.launchCount = false) :
    ∃ b st2, getBrowserInRun env st = (Except.ok b, st2) := by
  by_cases hlen : st.pool.length < MAX_BROWSER_INSTANCES
  · refine ⟨st.launchCount, (getBrowserInRun env st).2, ?_⟩
    have h1 : (getBrowserInRun env st).1 = Except.ok st.launchCount := by
      simp [getBrowserInRun, hlen, hl hlen]
    rw [← h1]
  · refine ⟨st.pool.getD (st.pool.length % MAX_BROWSER_INSTANCES) 0,
      (getBrowserInRun env st).2, ?_⟩
    have h1 : (getBrowserInRun env st).1 =
        Except.ok (st.pool.getD (st.pool.length % MAX_BROWSER_INSTANCES) 0) := by
      simp [getBrowserInRun, hlen]
    rw [← h1]

/-- C9 counterexample: 407 is at least 400 and none of the enumerated
special cases (403, 429, 304), yet its error string is the dedicated proxy
message, not `HTTP Error 407` — so "any other status >= 400 maps to exactly
HTTP Error <code>" fails at 407. -/
theorem status_407_not_generic_http_error_cex :
    classifyStatus (some 407) = some "Proxy authentication required (407)" ∧
    ¬ classifyStatus (some 407) = some "HTTP Error 407" := by
  refine ⟨rfl, by decide⟩

/-- C9 (amended): the navigation-outcome classification of `crawlPage`:
403 yields a message containing "forbidden", 429 one containing "Too many
requests", 304 one containing "not modified"; every other status at least
400 — except 407, which has its dedicated proxy message — yields exactly
`HTTP Error <code>`; a DNS-resolution failure exception is mapped to
"Domain name not resolved", which contains "not resolved"; and — for a
fresh URL that passes the prologue (parseable, not blocked, launch and page
creation succeed) — every classified status error and every classified
exception short-circuits the fetch, returning a result whose links are
empty and whose error field holds the classified message. -/
theorem status_classification_table :
    (∃ m, classifyStatus (some 403) = some m ∧ strContains m "forbidden" = true) ∧
    (∃ m, classifyStatus (some 429) = some m ∧
       strContains m "Too many requests" = true) ∧
    (∃ m, classifyStatus (some 304) = some m ∧
       strContains m "not modified" = true) ∧
    (∀ n, 400 ≤ n → n ≠ 403 → n ≠ 429 → n ≠ 407 →
       classifyStatus (some n) = some ("HTTP Error " ++ toString n)) ∧
    (classifyError "net::ERR_NAME_NOT_RESOLVED" = "Domain name not resolved" ∧
     strContains "Domain name not resolved" "not resolved" = true) ∧
    (∀ (env : Env) (req : CrawlRequest) (url baseUrl : String) (st : St)
        (uo : UrlObj) (s : Option Nat) (e : String),
      env.urlParse url = some uo → uo.hostname ∉ BLOCKED_SITES →
      url ∉ st.visited →
      (st.pool.length < MAX_BROWSER_INSTANCES →
        env.launchFails st.launchCount = false) →
      (∀ b, env.newPageFails b = none) →
      env.navigate url = NavOutcome.resp s → classifyStatus s = some e →
      ∃ st', crawlPage env req url baseUrl true st =
        (Except.ok { url := url, links := [], error := some e }, st')) ∧
    (∀ (env : Env) (req : CrawlRequest) (url baseUrl : String) (st : St)
        (uo : UrlObj) (m : String),
      env.urlParse url = some uo → uo.hostname ∉ BLOCKED_SITES →
      url ∉ st.visited →
      (st.pool.length < MAX_BROWSER_INSTANCES →
        env.launchFails st.launchCount = false) →
      (∀ b, env.newPageFails b = none) →
      env.navigate url = NavOutcome.thrown m →
      ∃ st', crawlPage env req url baseUrl true st =
        (Except.ok { url := url, links := [],
                     error := some (classifyError m) }, st')) := by
  refine ⟨⟨_, rfl, by decide⟩, ⟨_, rfl, by decide⟩, ⟨_, rfl, by decide⟩,
    ?_, ⟨by decide, by decide⟩, ?_, ?_⟩
  · intro n h1 h2 h3 h4
    have h0 : n ≠ 0 := by omega
    have h304 : n ≠ 304 := by omega
    have h204 : n ≠ 204 := by omega
    have h205 : n ≠ 205 := by omega
    simp [classifyStatus, h0, h2, h3, h4, h304, h204, h205, h1]
  · intro env req url baseUrl st uo s e hp hb hv hl hnp hnav hcl
    obtain ⟨b, stb, hgb⟩ := getBrowserInRun_ok env
      { st with visited := st.visited ++ [url],
                events := st.events ++ [Ev.fetch url] } hl
    refine ⟨{ stb with events := stb.events ++ [Ev.navigate url] }, ?_⟩
    simp only [crawlPage, hp]
    rw [if_neg hb, if_neg hv, hgb, hnav]
    simp only [hnp b, hcl]
  · intro env req url baseUrl st uo m hp hb hv hl hnp hnav
    obtain ⟨b, stb, hgb⟩ := getBrowserInRun_ok env
      { st with visited := st.visited ++ [url],
                events := st.events ++ [Ev.fetch url] } hl
    refine ⟨{ stb with events := stb.events ++ [Ev.navigate url] }, ?_⟩
    simp only [crawlPage, hp]
    rw [if_neg hb, if_neg hv, hgb, hnav]
    simp only [hnp b]

/-- Witness for the classification table: 500 maps to the generic
`HTTP Error 500`, a 403 navigation short-circuits `crawlPage` into a
link-less result carrying the forbidden message, and a DNS-failure
exception short-circuits it into a link-less result carrying the
classified DNS message. -/
theorem status_classification_table_witness :
    classifyStatus (some 500) = some ("HTTP Error " ++ toString 500) ∧
    (∃ st', crawlPage env403 req3 "http://s/" "http://s/" true (initSt [] []) =
       (Except.ok { url := "http://s/", links := [],
                    error := some "Access forbidden (403). This website is blocking web crawlers. Please use their official API or contact them for access." }, st')) ∧
    (∃ st', crawlPage envDNS req3 "http://s/" "http://s/" true (initSt [] []) =
       (Except.ok { url := "http://s/", links := [],
                    error := some (classifyError "net::ERR_NAME_NOT_RESOLVED") },
        st')) := by
  refine ⟨status_classification_table.2.2.2.1 500 (by decide) (by decide)
      (by decide) (by decide), ?_, ?_⟩
  · exact status_classification_table.2.2.2.2.2.1 env403 req3 "http://s/"
      "http://s/" (initSt [] []) { hostname := "s", origin := "http://s" }
      (some 403)
      "Access forbidden (403). This website is blocking web crawlers. Please use their official API or contact them for access."
      rfl (by decide) (by decide) (fun _ => rfl) (fun _ => rfl) rfl rfl
  · exact status_classification_table.2.2.2.2.2.2 envDNS req3 "http://s/"
      "http://s/" (initSt [] []) { hostname := "s", origin := "http://s" }
      "net::ERR_NAME_NOT_RESOLVED" rfl (by decide) (by decide)
      (fun _ => rfl) (fun _ => rfl) rfl

/-- C5 counterexample: the request-validation error path (empty URL) of
`POST` returns from inside the outer try before the try/finally hosting the
teardown is entered — with one live instance in the module pool the run ends
with the pool untouched and without any close event, refuting "teardown is
performed on every run outcome including request-validation errors". -/
theorem validation_error_skips_teardown_cex :
    (POST cleanEnv { req3 with url := "" } [7] []).pool = [7] ∧
    (POST cleanEnv { req3 with url := "" } [7] []).events = [] ∧
    Ev.closeAll ∉ (POST cleanEnv { req3 with url := "" } [7] []).events := by
  refine ⟨rfl, rfl, ?_⟩
  intro h
  rw [show (POST cleanEnv { req3 with url := "" } [7] []).events = ([] : List Ev)
    from rfl] at h
  exact List.not_mem_nil _ h

/-- C5 (amended): on every run outcome other than the request-validation
error path — normal completion, the malformed-URL internal-error path, for
any collaborator behaviour including close failures and client disconnects —
the run ends with the pool torn down: zero live instances and a recorded
teardown; the validation-error path (empty URL) alone ends with the pool
exactly as it found it and no teardown.  Teardown itself clears the pool for
every close-failure pattern and is idempotent: a second invocation leaves
the already-empty pool empty, merely recording another teardown. -/
theorem pool_teardown_except_validation_path (env : Env) (req : CrawlRequest)
    (pool0 : List Nat) (shots0 : List String) (st : St) :
    (req.url ≠ "" →
      (POST env req pool0 shots0).pool = [] ∧
      Ev.closeAll ∈ (POST env req pool0 shots0).events) ∧
    (req.url = "" →
      (POST env req pool0 shots0).pool = pool0 ∧
      Ev.closeAll ∉ (POST env req pool0 shots0).events) ∧
    (closeAllInRun env st).pool = [] ∧
    Ev.closeAll ∈ (closeAllInRun env st).events ∧
    closeAllInRun env (closeAllInRun env st) =
      { closeAllInRun env st with
          events := (closeAllInRun env st).events ++ [Ev.closeAll] } := by
  refine ⟨?_, ?_, (closeAllInRun_fields env st).2.2.2.1,
    (closeAllInRun_fields env st).2.2.2.2.2.2.1, ?_⟩
  · intro hu
    rw [POST, if_neg hu]
    cases hp : env.urlParse req.url with
    | none =>
      exact ⟨(closeAllInRun_fields env _).2.2.2.1,
        (closeAllInRun_fields env _).2.2.2.2.2.2.1⟩
    | some uo =>
      exact ⟨(closeAllInRun_fields env _).2.2.2.1,
        (closeAllInRun_fields env _).2.2.2.2.2.2.1⟩
  · intro hu
    rw [POST, if_pos hu]
    refine ⟨(writeFrame_fields env _ _).2.2.2.1, ?_⟩
    intro h
    rw [(writeFrame_fields env _ _).2.2.1] at h
    exact List.not_mem_nil _ h
  · simp [closeAllInRun]

/-- Witness for the amended teardown theorem: a concrete clean run over the
three-page sitemap site starting with one pooled instance ends with an empty
pool and a recorded teardown. -/
theorem pool_teardown_except_validation_path_witness :
    (POST cleanEnv req3 [7] []).pool = [] ∧
    Ev.closeAll ∈ (POST cleanEnv req3 [7] []).events := by
  exact (pool_teardown_except_validation_path cleanEnv req3 [7] []
    (initSt [] [])).1 (by decide)

theorem writeFrame_events (env : Env) (f : Frame) (st : St) :
    (writeFrame env f st).events = st.events :=
  (writeFrame_fields env f st).2.2.1

theorem newLinksLoop_events_ext (env : Env) (req : CrawlRequest)
    (baseUrl : String) (total : Nat) :
    ∀ (cs : List (List String)) (st : St),
      ∃ Δ, (newLinksLoop env req baseUrl total cs st).events =
        st.events ++ Δ := by
  intro cs
  induction cs with
  | nil => intro st; exact ⟨[], by simp [newLinksLoop]⟩
  | cons c cs ih =>
    intro st
    rw [newLinksLoop]
    split
    · exact ⟨[], by simp⟩
    · rcases hrw : runWave env req baseUrl false c st with ⟨rs, st1⟩
      simp only [hrw]
      obtain ⟨_, _, _, _, _, ⟨Δ1, he1⟩, _, _, _, _⟩ :=
        runWave_spec env req baseUrl false c st rs st1 hrw
      split
      · obtain ⟨Δ2, he2⟩ := ih (writeFrame env
          (Frame.error "Error processing batch: New batch processing timeout"
            (some (st1.results.length, total))) st1)
        refine ⟨Δ1 ++ Δ2, ?_⟩
        rw [he2, writeFrame_events, he1, List.append_assoc]
      · obtain ⟨Δ2, he2⟩ := ih (writeFrame env
          (Frame.progress rs (some false) req.checkAccessibility
            (some ((st1.results ++ rs).length, total)))
          { st1 with results := st1.results ++ rs })
        refine ⟨Δ1 ++ Δ2, ?_⟩
        rw [he2, writeFrame_events, he1, List.append_assoc]

theorem outerLoop_events_ext (env : Env) (req : CrawlRequest)
    (baseUrl : String) (usedSm : Bool) (totalUrls : Nat) :
    ∀ (cs : List (List String)) (n : Nat) (st : St),
      ∃ Δ, (outerLoop env req baseUrl usedSm totalUrls cs n st).events =
        st.events ++ Δ := by
  intro cs
  induction cs with
  | nil => intro n st; exact ⟨[], by simp [outerLoop]⟩
  | cons c cs ih =>
    intro n st
    rw [outerLoop]
    split
    · exact ⟨[], by simp⟩
    · rcases hrw : runWave env req baseUrl true c st with ⟨rs, st1⟩
      simp only [hrw]
      obtain ⟨_, _, _, _, _, ⟨Δ1, he1⟩, _, _, _, _⟩ :=
        runWave_spec env req baseUrl true c st rs st1 hrw
      split
      · obtain ⟨Δ2, he2⟩ := ih (n + c.length) (writeFrame env
          (Frame.error "Error processing batch: Batch processing timeout"
            (some (st1.results.length, totalUrls))) st1)
        refine ⟨Δ1 ++ Δ2, ?_⟩
        rw [he2, writeFrame_events, he1, List.append_assoc]
      · split
        · obtain ⟨Δ2, he2⟩ := ih (n + c.length) (writeFrame env
            (Frame.progress rs (some usedSm) req.checkAccessibility
              (some (n + c.length, totalUrls)))
            { st1 with results := st1.results ++ rs })
          refine ⟨Δ1 ++ Δ2, ?_⟩
          rw [he2, writeFrame_events, he1, List.append_assoc]
        · obtain ⟨Δ2, he2⟩ := newLinksLoop_events_ext env req baseUrl
            (totalUrls + (harvest rs (writeFrame env
              (Frame.progress rs (some usedSm) req.checkAccessibility
                (some (n + c.length, totalUrls)))
              { st1 with results := st1.results ++ rs }).visited).length)
            (chunks req.concurrentPages (harvest rs (writeFrame env
              (Frame.progress rs (some usedSm) req.checkAccessibility
                (some (n + c.length, totalUrls)))
              { st1 with results := st1.results ++ rs }).visited))
            (writeFrame env
              (Frame.progress rs (some usedSm) req.checkAccessibility
                (some (n + c.length, totalUrls)))
              { st1 with results := st1.results ++ rs })
          obtain ⟨Δ3, he3⟩ := ih (n + c.length) _
          refine ⟨Δ1 ++ (Δ2 ++ Δ3), ?_⟩
          rw [he3, he2, writeFrame_events, he1]
          simp [List.append_assoc]

theorem crawlBody_events_ext (env : Env) (req : CrawlRequest)
    (baseUrl : String) (st : St) :
    ∃ Δ, (crawlBody env req baseUrl st).events = st.events ++ Δ := by
  rw [crawlBody]
  split
  · obtain ⟨Δ1, he1⟩ := outerLoop_events_ext env req baseUrl
      (!((getSitemapUrls env st).1).isEmpty)
      (if ((getSitemapUrls env st).1).isEmpty then [req.url]
       else (getSitemapUrls env st).1).length
      (chunks req.concurrentPages
        (if ((getSitemapUrls env st).1).isEmpty then [req.url]
         else (getSitemapUrls env st).1)) 0
      { (getSitemapUrls env st).2 with
          usedSitemap := some (!((getSitemapUrls env st).1).isEmpty) }
    refine ⟨[Ev.sitemapFetch] ++ Δ1, ?_⟩
    rw [writeFrame_events, he1]
    simp [getSitemapUrls, List.append_assoc]
  · rcases hcp : crawlPage env req req.url baseUrl false st with ⟨r, st1⟩
    obtain ⟨_, _, _, _, _, _, ⟨Δ1, he1⟩, _, _⟩ :=
      crawlPage_spec env req req.url baseUrl false st r st1 hcp
    simp only [hcp]
    cases r with
    | error e =>
      exact ⟨Δ1, by rw [writeFrame_events, he1]⟩
    | ok cr =>
      refine ⟨Δ1, ?_⟩
      rw [writeFrame_events, writeFrame_events, he1]

theorem cleanupPhase_events_shots (req : CrawlRequest) (st0 : St)
    (hts : req.takeScreenshots = true) :
    ∃ tail, (cleanupPhase req st0).events =
      st0.events ++ Ev.cleanShots (cleanupScreenshots st0.shotsDir) :: tail := by
  by_cases hca : req.checkAccessibility = true
  · exact ⟨[Ev.cleanViolShots, Ev.cleanTemp],
      by simp [cleanupPhase, hts, hca, List.append_assoc]⟩
  · exact ⟨[Ev.cleanTemp], by simp [cleanupPhase, hts, hca, List.append_assoc]⟩

/-- C10: for every screenshots-enabled run that passes request validation,
cleaning the public screenshots directory is the very first effect of the
run: the directory listing is empty afterwards (every file, including every
screenshot written by an earlier run, is deleted) and the clean event
precedes every other event of the run — in particular every fetch and every
navigation — so references returned by earlier runs stop resolving once the
run starts. -/
theorem screenshots_dir_cleared_before_any_fetch (env : Env)
    (req : CrawlRequest) (pool0 : List Nat) (shots0 : List String)
    (hts : req.takeScreenshots = true) (hu : req.url ≠ "") :
    cleanupScreenshots shots0 = [] ∧
    ∃ rest, (POST env req pool0 shots0).events = Ev.cleanShots [] :: rest := by
  refine ⟨cleanupScreenshots_eq_nil shots0, ?_⟩
  rw [POST, if_neg hu]
  obtain ⟨tail, hct⟩ := cleanupPhase_events_shots req (initSt pool0 shots0) hts
  cases hp : env.urlParse req.url with
  | none =>
    obtain ⟨Δc, hcc⟩ := (closeAllInRun_fields env
      (writeFrame env (Frame.error "Internal server error" none)
        (cleanupPhase req (initSt pool0 shots0)))).2.2.2.2.2.2.2.2.2
    refine ⟨tail ++ Δc, ?_⟩
    rw [hcc, writeFrame_events, hct]
    simp [initSt, cleanupScreenshots_eq_nil]
  | some uo =>
    obtain ⟨Δb, hcb⟩ := crawlBody_events_ext env req uo.origin
      (cleanupPhase req (initSt pool0 shots0))
    obtain ⟨Δc, hcc⟩ := (closeAllInRun_fields env
      (crawlBody env req uo.origin
        (cleanupPhase req (initSt pool0 shots0)))).2.2.2.2.2.2.2.2.2
    refine ⟨tail ++ Δb ++ Δc, ?_⟩
    rw [hcc, hcb, hct]
    simp [initSt, cleanupScreenshots_eq_nil]

/-- Witness for the screenshot-clearing theorem: a clean screenshots-enabled
run over the three-page sitemap site starting with one stale screenshot on
disk deletes it first — the run trace starts with the clean event and an
empty directory listing. -/
theorem screenshots_dir_cleared_before_any_fetch_witness :
    cleanupScreenshots ["old.png"] = [] ∧
    ∃ rest, (POST cleanEnv { req3 with takeScreenshots := true }
      [] ["old.png"]).events = Ev.cleanShots [] :: rest := by
  exact screenshots_dir_cleared_before_any_fetch cleanEnv
    { req3 with takeScreenshots := true } [] ["old.png"] rfl (by decide)

theorem harvest_nodup (rs : List CrawlResult) (v : List String) :
    (harvest rs v).Nodup :=
  nodup_dedupKeepFirst _

theorem harvest_not_visited (rs : List CrawlResult) (v : List String) :
    ∀ u ∈ harvest rs v, u ∉ v := by
  intro u hu
  have hm := mem_dedupKeepFirst.mp hu
  have := List.of_mem_filter hm
  simpa using this

theorem harvest_nil_links (r : CrawlResult) (v : List String)
    (h : r.links = []) : harvest [r] v = [] := by
  simp [harvest, h, dedupKeepFirst, dedupSeen]

theorem newLinksLoop_confined (env : Env) (req : CrawlRequest)
    (baseUrl : String) (total : Nat) :
    ∀ (cs : List (List String)) (st : St),
      ∃ F R,
        fetchesOf (newLinksLoop env req baseUrl total cs st).events =
          fetchesOf st.events ++ F ∧
        F.Sublist cs.flatten ∧
        (newLinksLoop env req baseUrl total cs st).results =
          st.results ++ R ∧
        (R.map (fun r => r.url)).Sublist cs.flatten ∧
        (newLinksLoop env req baseUrl total cs st).usedSitemap =
          st.usedSitemap ∧
        ∃ ext, (newLinksLoop env req baseUrl total cs st).visited =
          st.visited ++ ext := by
  intro cs
  induction cs with
  | nil =>
    intro st
    exact ⟨[], [], by simp [newLinksLoop], by simp, by simp [newLinksLoop],
      by simp, by simp [newLinksLoop], ⟨[], by simp [newLinksLoop]⟩⟩
  | cons c cs ih =>
    intro st
    rw [newLinksLoop]
    split
    · exact ⟨[], [], by simp, by simp, by simp, by simp, by simp,
        ⟨[], by simp⟩⟩
    · rcases hrw : runWave env req baseUrl false c st with ⟨rs, st1⟩
      simp only [hrw]
      obtain ⟨w1, _, _, _, w5, _, ⟨ext1, wv⟩, ⟨fs1, wfet, fsub1⟩, wmap, _⟩ :=
        runWave_spec env req baseUrl false c st rs st1 hrw
      split
      · obtain ⟨F, R, ihf, ihsub, ihr, ihrsub, ihus, ⟨ext2, ihv⟩⟩ :=
          ih (writeFrame env
            (Frame.error "Error processing batch: New batch processing timeout"
              (some (st1.results.length, total))) st1)
        refine ⟨fs1 ++ F, R, ?_, ?_, ?_, ?_, ?_, ⟨ext1 ++ ext2, ?_⟩⟩
        · rw [ihf, writeFrame_events, wfet, List.append_assoc]
        · rw [List.flatten_cons]
          exact fsub1.append ihsub
        · rw [ihr, (writeFrame_fields env _ _).2.1, w1]
        · rw [List.flatten_cons]
          exact ihrsub.trans (List.sublist_append_right _ _)
        · rw [ihus, (writeFrame_fields env _ _).2.2.2.2.1, w5]
        · rw [ihv, (writeFrame_fields env _ _).1, wv, List.append_assoc]
      · obtain ⟨F, R, ihf, ihsub, ihr, ihrsub, ihus, ⟨ext2, ihv⟩⟩ :=
          ih (writeFrame env
            (Frame.progress rs (some false) req.checkAccessibility
              (some ((st1.results ++ rs).length, total)))
            { st1 with results := st1.results ++ rs })
        refine ⟨fs1 ++ F, rs ++ R, ?_, ?_, ?_, ?_, ?_, ⟨ext1 ++ ext2, ?_⟩⟩
        · rw [ihf, writeFrame_events]
          show fetchesOf st1.events ++ F = _
          rw [wfet, List.append_assoc]
        · rw [List.flatten_cons]
          exact fsub1.append ihsub
        · rw [ihr, (writeFrame_fields env _ _).2.1]
          show st1.results ++ rs ++ R = _
          rw [w1, List.append_assoc]
        · rw [List.flatten_cons, List.map_append]
          exact wmap.append ihrsub
        · rw [ihus, (writeFrame_fields env _ _).2.2.2.2.1]
          exact w5
        · rw [ihv, (writeFrame_fields env _ _).1]
          show st1.visited ++ ext2 = _
          rw [wv, List.append_assoc]

theorem outerLoop_sitemap_confined (env : Env) (req : CrawlRequest)
    (baseUrl : String) (totalUrls : Nat) :
    ∀ (cs : List (List String)) (n : Nat) (st : St),
      ∃ F R,
        fetchesOf (outerLoop env req baseUrl true totalUrls cs n st).events =
          fetchesOf st.events ++ F ∧
        F.Sublist cs.flatten ∧
        (outerLoop env req baseUrl true totalUrls cs n st).results =
          st.results ++ R ∧
        (R.map (fun r => r.url)).Sublist cs.flatten ∧
        (outerLoop env req baseUrl true totalUrls cs n st).usedSitemap =
          st.usedSitemap := by
  intro cs
  induction cs with
  | nil =>
    intro n st
    exact ⟨[], [], by simp [outerLoop], by simp, by simp [outerLoop],
      by simp, by simp [outerLoop]⟩
  | cons c cs ih =>
    intro n st
    rw [outerLoop]
    split
    · exact ⟨[], [], by simp, by simp, by simp, by simp, by simp⟩
    · rcases hrw : runWave env req baseUrl true c st with ⟨rs, st1⟩
      simp only [hrw]
      obtain ⟨w1, _, _, _, w5, _, _, ⟨fs1, wfet, fsub1⟩, wmap, _⟩ :=
        runWave_spec env req baseUrl true c st rs st1 hrw
      split
      · obtain ⟨F, R, ihf, ihsub, ihr, ihrsub, ihus⟩ :=
          ih (n + c.length) (writeFrame env
            (Frame.error "Error processing batch: Batch processing timeout"
              (some (st1.results.length, totalUrls))) st1)
        refine ⟨fs1 ++ F, R, ?_, ?_, ?_, ?_, ?_⟩
        · rw [ihf, writeFrame_events, wfet, List.append_assoc]
        · rw [List.flatten_cons]
          exact fsub1.append ihsub
        · rw [ihr, (writeFrame_fields env _ _).2.1, w1]
        · rw [List.flatten_cons]
          exact ihrsub.trans (List.sublist_append_right _ _)
        · rw [ihus, (writeFrame_fields env _ _).2.2.2.2.1, w5]
      · rw [if_pos trivial]
        obtain ⟨F, R, ihf, ihsub, ihr, ihrsub, ihus⟩ :=
          ih (n + c.length) (writeFrame env
            (Frame.progress rs (some true) req.checkAccessibility
              (some (n + c.length, totalUrls)))
            { st1 with results := st1.results ++ rs })
        refine ⟨fs1 ++ F, rs ++ R, ?_, ?_, ?_, ?_, ?_⟩
        · rw [ihf, writeFrame_events]
          show fetchesOf st1.events ++ F = _
          rw [wfet, List.append_assoc]
        · rw [List.flatten_cons]
          exact fsub1.append ihsub
        · rw [ihr, (writeFrame_fields env _ _).2.1]
          show st1.results ++ rs ++ R = _
          rw [w1, List.append_assoc]
        · rw [List.flatten_cons, List.map_append]
          exact wmap.append ihrsub
        · rw [ihus, (writeFrame_fields env _ _).2.2.2.2.1]
          exact w5

theorem crawlBody_sitemap_confined (env : Env) (req : CrawlRequest)
    (baseUrl : String) (st : St)
    (hcw : req.crawlEntireWebsite = true)
    (hsm : env.sitemapOk = true)
    (hne : dedupKeepFirst env.sitemapLocs ≠ []) :
    ∃ F R,
      fetchesOf (crawlBody env req baseUrl st).events =
        fetchesOf st.events ++ F ∧
      F.Sublist (chunks req.concurrentPages
        (dedupKeepFirst env.sitemapLocs)).flatten ∧
      (crawlBody env req baseUrl st).results = st.results ++ R ∧
      (R.map (fun r => r.url)).Sublist (chunks req.concurrentPages
        (dedupKeepFirst env.sitemapLocs)).flatten ∧
      (crawlBody env req baseUrl st).usedSitemap = some true := by
  have hie : (dedupKeepFirst env.sitemapLocs).isEmpty = false := by
    cases hd : dedupKeepFirst env.sitemapLocs with
    | nil => exact absurd hd hne
    | cons a l => rfl
  rw [crawlBody, if_pos (by rw [hcw])]
  simp only [getSitemapUrls, hsm, if_true, hie, Bool.not_false, if_false]
  rw [show (if false = true then [req.url] else dedupKeepFirst env.sitemapLocs) =
    dedupKeepFirst env.sitemapLocs by simp]
  obtain ⟨F, R, hf, hfsub, hr, hrsub, hus⟩ :=
    outerLoop_sitemap_confined env req baseUrl
      (dedupKeepFirst env.sitemapLocs).length
      (chunks req.concurrentPages (dedupKeepFirst env.sitemapLocs)) 0
      { st with events := st.events ++ [Ev.sitemapFetch],
                usedSitemap := some true }
  refine ⟨F, R, ?_, hfsub, ?_, hrsub, ?_⟩
  · rw [writeFrame_events, hf]
    show fetchesOf (st.events ++ [Ev.sitemapFetch]) ++ F = _
    rw [fetchesOf_append_sitemapFetch]
  · rw [(writeFrame_fields env _ _).2.1, hr]
  · rw [(writeFrame_fields env _ _).2.2.2.2.1, hus]

/-- C4: sitemap exclusivity.  For every full-site run whose sitemap fetch
succeeds with at least one URL (and whose request passes validation, parses,
and uses a positive batch size), the run reports `usedSitemap = true`, every
URL selected for fetching is one of the deduplicated sitemap URLs, and every
result is for a sitemap URL — recursive link-following contributes nothing:
no URL discovered via page links and absent from the sitemap is ever
fetched. -/
theorem sitemap_exclusive (env : Env) (req : CrawlRequest)
    (pool0 : List Nat) (shots0 : List String) (uo : UrlObj)
    (hk : req.concurrentPages ≠ 0)
    (hu : ¬ req.url = "")
    (hp : env.urlParse req.url = some uo)
    (hcw : req.crawlEntireWebsite = true)
    (hsm : env.sitemapOk = true)
    (hne : dedupKeepFirst env.sitemapLocs ≠ []) :
    (POST env req pool0 shots0).usedSitemap = some true ∧
    (∀ u ∈ fetchesOf (POST env req pool0 shots0).events,
       u ∈ dedupKeepFirst env.sitemapLocs) ∧
    (∀ r ∈ (POST env req pool0 shots0).results,
       r.url ∈ dedupKeepFirst env.sitemapLocs) := by
  have hpost : POST env req pool0 shots0 =
      closeAllInRun env
        (crawlBody env req uo.origin (cleanupPhase req (initSt pool0 shots0))) := by
    rw [POST, if_neg hu, hp]
  obtain ⟨_, hres0, _, _, _, _, _, _, _, hfet0, _⟩ :=
    cleanupPhase_fields req (initSt pool0 shots0)
  obtain ⟨F, R, hf, hfsub, hr, hrsub, hus⟩ :=
    crawlBody_sitemap_confined env req uo.origin
      (cleanupPhase req (initSt pool0 shots0)) hcw hsm hne
  rw [chunks_flatten hk] at hfsub hrsub
  have hfpost : fetchesOf (POST env req pool0 shots0).events = F := by
    rw [hpost, (closeAllInRun_fields env _).2.2.2.2.2.2.2.2.1, hf, hfet0]
    show fetchesOf (initSt pool0 shots0).events ++ F = F
    rfl
  have hrpost : (POST env req pool0 shots0).results = R := by
    rw [hpost, (closeAllInRun_fields env _).2.1, hr, hres0]
    rfl
  refine ⟨?_, ?_, ?_⟩
  · rw [hpost, (closeAllInRun_fields env _).2.2.2.2.1, hus]
  · intro u hu2
    rw [hfpost] at hu2
    exact hfsub.subset hu2
  · intro r hr2
    rw [hrpost] at hr2
    exact hrsub.subset (List.mem_map_of_mem _ hr2)

/-- Witness for sitemap exclusivity: the three-URL sitemap site crawled
full-site reports `usedSitemap = true` and confines both the fetch trace and
the results to the three sitemap URLs. -/
theorem sitemap_exclusive_witness :
    (POST env3 req3 [] []).usedSitemap = some true ∧
    (∀ u ∈ fetchesOf (POST env3 req3 [] []).events,
       u ∈ dedupKeepFirst env3.sitemapLocs) ∧
    (∀ r ∈ (POST env3 req3 [] []).results,
       r.url ∈ dedupKeepFirst env3.sitemapLocs) :=
  sitemap_exclusive env3 req3 [] [] { hostname := "s", origin := "http://s" }
    (by decide) (by decide) rfl rfl rfl (by decide)

theorem crawlPage_navOk (env : Env) (req : CrawlRequest) (url baseUrl : String)
    (cl : Bool) (st : St) (r : Except String CrawlResult) (st' : St)
    (h : crawlPage env req url baseUrl cl st = (r, st'))
    (hok : NavOk st) : NavOk st' := by
  obtain ⟨_, _, _, _, _, _, _, hvis, _⟩ :=
    crawlPage_spec env req url baseUrl cl st r st' h
  rcases hvis with ⟨hv, hn⟩ | ⟨hnv, hv, hn⟩
  · constructor
    · rw [hn]; exact hok.1
    · intro u hu
      rw [hn] at hu
      rw [hv]
      exact hok.2 u hu
  · rcases hn with hn | hn
    · constructor
      · rw [hn]; exact hok.1
      · intro u hu
        rw [hn] at hu
        rw [hv]
        exact List.mem_append_left _ (hok.2 u hu)
    · constructor
      · rw [hn]
        refine List.Nodup.append hok.1 (List.nodup_singleton _) ?_
        intro a ha hb
        rw [List.mem_singleton] at hb
        subst hb
        exact hnv (hok.2 _ ha)
      · intro u hu
        rw [hn] at hu
        rw [hv]
        rcases List.mem_append.mp hu with hu | hu
        · exact List.mem_append_left _ (hok.2 u hu)
        · rw [List.mem_singleton] at hu
          subst hu
          exact List.mem_append_right _ (List.mem_singleton.mpr rfl)

theorem newLinksLoop_navOk (env : Env) (req : CrawlRequest)
    (baseUrl : String) (total : Nat) :
    ∀ (cs : List (List String)) (st : St), NavOk st →
      NavOk (newLinksLoop env req baseUrl total cs st) := by
  intro cs
  induction cs with
  | nil => intro st hok; exact hok
  | cons c cs ih =>
    intro st hok
    rw [newLinksLoop]
    split
    · exact hok
    · rcases hrw : runWave env req baseUrl false c st with ⟨rs, st1⟩
      simp only [hrw]
      have hok1 := runWave_navOk env req baseUrl false c st rs st1 hrw hok
      split
      · exact ih _ (writeFrame_navOk env _ _ hok1)
      · exact ih _ (writeFrame_navOk env _ _ hok1)

theorem outerLoop_navOk (env : Env) (req : CrawlRequest) (baseUrl : String)
    (usedSm : Bool) (totalUrls : Nat) :
    ∀ (cs : List (List String)) (n : Nat) (st : St), NavOk st →
      NavOk (outerLoop env req baseUrl usedSm totalUrls cs n st) := by
  intro cs
  induction cs with
  | nil => intro n st hok; exact hok
  | cons c cs ih =>
    intro n st hok
    rw [outerLoop]
    split
    · exact hok
    · rcases hrw : runWave env req baseUrl true c st with ⟨rs, st1⟩
      simp only [hrw]
      have hok1 := runWave_navOk env req baseUrl true c st rs st1 hrw hok
      split
      · exact ih _ _ (writeFrame_navOk env _ _ hok1)
      · split
        · exact ih _ _ (writeFrame_navOk env _ _ hok1)
        · exact ih _ _ (newLinksLoop_navOk env req baseUrl _ _ _
            (writeFrame_navOk env _ _ hok1))

theorem crawlBody_navOk (env : Env) (req : CrawlRequest) (baseUrl : String)
    (st : St) (hok : NavOk st) : NavOk (crawlBody env req baseUrl st) := by
  have hsev : navsOf (st.events ++ [Ev.sitemapFetch]) = navsOf st.events := by
    rw [navsOf_append]; simp [navsOf]
  rw [crawlBody]
  split
  · apply writeFrame_navOk
    apply outerLoop_navOk
    constructor
    · show (navsOf (st.events ++ [Ev.sitemapFetch])).Nodup
      rw [hsev]; exact hok.1
    · intro u hu
      have hu2 : u ∈ navsOf (st.events ++ [Ev.sitemapFetch]) := hu
      rw [hsev] at hu2
      show u ∈ st.visited
      exact hok.2 u hu2
  · rcases hcp : crawlPage env req req.url baseUrl false st with ⟨r, st1⟩
    simp only [hcp]
    have hok1 := crawlPage_navOk env req req.url baseUrl false st r st1 hcp hok
    cases r with
    | error e => exact writeFrame_navOk env _ _ hok1
    | ok cr => exact writeFrame_navOk env _ _ (writeFrame_navOk env _ _ hok1)

theorem initSt_navOk (pool0 : List Nat) (shots0 : List String) :
    NavOk (initSt pool0 shots0) :=
  ⟨List.nodup_nil, fun u hu => absurd hu (List.not_mem_nil u)⟩

theorem cleanupPhase_navOk (req : CrawlRequest) (st0 : St) (hok : NavOk st0) :
    NavOk (cleanupPhase req st0) := by
  constructor
  · rw [(cleanupPhase_fields req st0).2.2.2.2.2.2.2.2.1]
    exact hok.1
  · intro u hu
    rw [(cleanupPhase_fields req st0).2.2.2.2.2.2.2.2.1] at hu
    rw [(cleanupPhase_fields req st0).1]
    exact hok.2 u hu

theorem closeAllInRun_navOk (env : Env) (st : St) (hok : NavOk st) :
    NavOk (closeAllInRun env st) := by
  constructor
  · rw [(closeAllInRun_fields env st).2.2.2.2.2.2.2.1]
    exact hok.1
  · intro u hu
    rw [(closeAllInRun_fields env st).2.2.2.2.2.2.2.1] at hu
    rw [(closeAllInRun_fields env st).2.2.1]
    exact hok.2 u hu

theorem POST_navOk (env : Env) (req : CrawlRequest) (pool0 : List Nat)
    (shots0 : List String) : NavOk (POST env req pool0 shots0) := by
  rw [POST]
  split
  · exact writeFrame_navOk env _ _ (initSt_navOk pool0 shots0)
  · split
    · exact closeAllInRun_navOk env _ (writeFrame_navOk env _ _
        (cleanupPhase_navOk req _ (initSt_navOk pool0 shots0)))
    · exact closeAllInRun_navOk env _ (crawlBody_navOk env req _ _
        (cleanupPhase_navOk req _ (initSt_navOk pool0 shots0)))

theorem crawlBody_seed_nodup (env : Env) (req : CrawlRequest)
    (baseUrl : String) (st : St)
    (hk : req.concurrentPages ≠ 0)
    (hcw : req.crawlEntireWebsite = true)
    (hsm : (if env.sitemapOk then dedupKeepFirst env.sitemapLocs else []) = [])
    (hvis : req.url ∉ st.visited) :
    ∃ F R,
      fetchesOf (crawlBody env req baseUrl st).events =
        fetchesOf st.events ++ F ∧ F.Nodup ∧
      (crawlBody env req baseUrl st).results = st.results ++ R ∧
      (R.map (fun r => r.url)).Nodup := by
  rw [crawlBody, if_pos (by rw [hcw])]
  simp only [getSitemapUrls, hsm, List.isEmpty_nil, Bool.not_true, if_true]
  rw [chunks_singleton hk]
  rw [outerLoop]
  split
  · refine ⟨[], [], ?_, List.nodup_nil, ?_, by simp⟩
    · rw [writeFrame_events]
      show fetchesOf (st.events ++ [Ev.sitemapFetch]) = _
      rw [fetchesOf_append_sitemapFetch]
      simp
    · rw [(writeFrame_fields env _ _).2.1]
      simp
  · rw [runWave_singleton]
    rcases hfw : fetchWrapped env req baseUrl true req.url
        { st with events := st.events ++ [Ev.sitemapFetch],
                  usedSitemap := some false } with ⟨ro, st1⟩
    obtain ⟨f1, _, _, _, _, _, _, _, ftrig, fok⟩ :=
      fetchWrapped_spec env req baseUrl true req.url _ ro st1 hfw
    obtain ⟨hfet1, r1, hro⟩ := ftrig (Or.inr hvis)
    subst hro
    obtain ⟨hurl, _, _, hlor⟩ := fok r1 rfl
    simp only [hfw, Option.toList]
    split
    · rw [outerLoop_nil]
      refine ⟨[req.url], [], ?_, List.nodup_singleton _, ?_, by simp⟩
      · rw [writeFrame_events, writeFrame_events, hfet1,
          fetchesOf_append_sitemapFetch]
      · rw [(writeFrame_fields env _ _).2.1, (writeFrame_fields env _ _).2.1,
          f1]
        simp
    · rw [if_neg (show ¬(false = true) by simp)]
      have hWv : (writeFrame env
          (Frame.progress [r1] (some false) req.checkAccessibility
            (some (0 + [req.url].length, [req.url].length)))
          { st1 with results := st1.results ++ [r1] }).visited = st1.visited :=
        (writeFrame_fields env _ _).1
      rw [hWv]
      obtain ⟨F2, R2, nf, nfsub, nr, nrsub, _, _⟩ :=
        newLinksLoop_confined env req baseUrl
          ([req.url].length + (harvest [r1] st1.visited).length)
          (chunks req.concurrentPages (harvest [r1] st1.visited))
          (writeFrame env
            (Frame.progress [r1] (some false) req.checkAccessibility
              (some (0 + [req.url].length, [req.url].length)))
            { st1 with results := st1.results ++ [r1] })
      rw [outerLoop_nil]
      rw [chunks_flatten hk] at nfsub nrsub
      have hnotin : ∀ x, x ∈ harvest [r1] st1.visited → x ≠ req.url := by
        intro x hx
        rcases hlor with hln | hvin
        · rw [harvest_nil_links r1 st1.visited hln] at hx
          exact absurd hx (List.not_mem_nil x)
        · intro hxe
          subst hxe
          exact harvest_not_visited [r1] st1.visited req.url hx hvin
      refine ⟨req.url :: F2, r1 :: R2, ?_, ?_, ?_, ?_⟩
      · rw [writeFrame_events, nf, writeFrame_events]
        show fetchesOf st1.events ++ F2 = _
        rw [hfet1, fetchesOf_append_sitemapFetch, List.append_assoc]
        rfl
      · refine List.nodup_cons.mpr ⟨?_, List.Nodup.sublist nfsub
          (harvest_nodup _ _)⟩
        intro hmem
        exact hnotin req.url (nfsub.subset hmem) rfl
      · rw [(writeFrame_fields env _ _).2.1, nr, (writeFrame_fields env _ _).2.1]
        show st1.results ++ [r1] ++ R2 = _
        rw [f1]
        show st.results ++ [r1] ++ R2 = _
        rw [List.append_assoc]
        rfl
      · rw [List.map_cons, hurl]
        refine List.nodup_cons.mpr ⟨?_, List.Nodup.sublist nrsub
          (harvest_nodup _ _)⟩
        intro hmem
        exact hnotin req.url (nrsub.subset hmem) rfl

/-- C6: visited-set discipline and idempotent dedup.  For every run with a
positive batch size, no URL is selected for fetching twice (the fetch trace
is duplicate-free, even when several pages of one wave report the same
link), no URL appears twice in the aggregate result list, and navigation
respects the visited set: a URL is recorded in the visited set by the time
it is navigated, and no URL is navigated twice. -/
theorem no_url_fetched_twice (env : Env) (req : CrawlRequest)
    (pool0 : List Nat) (shots0 : List String)
    (hk : req.concurrentPages ≠ 0) :
    (fetchesOf (POST env req pool0 shots0).events).Nodup ∧
    ((POST env req pool0 shots0).results.map (fun r => r.url)).Nodup ∧
    (navsOf (POST env req pool0 shots0).events).Nodup ∧
    (∀ u ∈ navsOf (POST env req pool0 shots0).events,
       u ∈ (POST env req pool0 shots0).visited) := by
  have hnav := POST_navOk env req pool0 shots0
  suffices h : (fetchesOf (POST env req pool0 shots0).events).Nodup ∧
      ((POST env req pool0 shots0).results.map (fun r => r.url)).Nodup by
    exact ⟨h.1, h.2, hnav.1, hnav.2⟩
  rw [POST]
  split
  · constructor
    · rw [writeFrame_events]
      exact List.nodup_nil
    · rw [(writeFrame_fields env _ _).2.1]
      exact List.nodup_nil
  · split
    · constructor
      · rw [(closeAllInRun_fields env _).2.2.2.2.2.2.2.2.1, writeFrame_events,
          (cleanupPhase_fields req _).2.2.2.2.2.2.2.2.2.1]
        exact List.nodup_nil
      · rw [(closeAllInRun_fields env _).2.1, (writeFrame_fields env _ _).2.1,
          (cleanupPhase_fields req _).2.1]
        exact List.nodup_nil
    · rename_i uo heq
      by_cases hcw : req.crawlEntireWebsite = true
      · by_cases hsm : (if env.sitemapOk then dedupKeepFirst env.sitemapLocs
            else []) = []
        · obtain ⟨F, R, hf, hFnd, hr, hRnd⟩ :=
            crawlBody_seed_nodup env req uo.origin
              (cleanupPhase req (initSt pool0 shots0)) hk hcw hsm
              (by rw [(cleanupPhase_fields req _).1]; simp [initSt])
          constructor
          · rw [(closeAllInRun_fields env _).2.2.2.2.2.2.2.2.1, hf,
              (cleanupPhase_fields req _).2.2.2.2.2.2.2.2.2.1]
            exact hFnd
          · rw [(closeAllInRun_fields env _).2.1, hr,
              (cleanupPhase_fields req _).2.1]
            exact hRnd
        · have hok : env.sitemapOk = true := by
            cases h : env.sitemapOk with
            | true => rfl
            | false => exact absurd (by rw [h]; simp) hsm
          have hne : dedupKeepFirst env.sitemapLocs ≠ [] := by
            intro h
            exact hsm (by rw [hok, h]; simp)
          obtain ⟨F, R, hf, hfsub, hr, hrsub, _⟩ :=
            crawlBody_sitemap_confined env req uo.origin
              (cleanupPhase req (initSt pool0 shots0)) hcw hok hne
          rw [chunks_flatten hk] at hfsub hrsub
          have hnd := nodup_dedupKeepFirst env.sitemapLocs
          constructor
          · rw [(closeAllInRun_fields env _).2.2.2.2.2.2.2.2.1, hf,
              (cleanupPhase_fields req _).2.2.2.2.2.2.2.2.2.1]
            exact List.Nodup.sublist hfsub hnd
          · rw [(closeAllInRun_fields env _).2.1, hr,
              (cleanupPhase_fields req _).2.1]
            exact List.Nodup.sublist hrsub hnd
      · have hcwf : req.crawlEntireWebsite = false := by
          cases h : req.crawlEntireWebsite with
          | true => exact absurd h hcw
          | false => rfl
        simp only [crawlBody]
        rw [if_neg (by rw [hcwf]; simp)]
        rcases hcp : crawlPage env req req.url uo.origin false
            (cleanupPhase req (initSt pool0 shots0)) with ⟨r, st1⟩
        obtain ⟨c1, _, _, _, _, c6, _, _, _⟩ :=
          crawlPage_spec env req req.url uo.origin false _ r st1 hcp
        cases r with
        | error e =>
          constructor
          · rw [(closeAllInRun_fields env _).2.2.2.2.2.2.2.2.1,
              writeFrame_events, c6,
              (cleanupPhase_fields req _).2.2.2.2.2.2.2.2.2.1]
            exact List.nodup_singleton _
          · rw [(closeAllInRun_fields env _).2.1,
              (writeFrame_fields env _ _).2.1, c1,
              (cleanupPhase_fields req _).2.1]
            exact List.nodup_nil
        | ok cr =>
          constructor
          · rw [(closeAllInRun_fields env _).2.2.2.2.2.2.2.2.1,
              writeFrame_events, writeFrame_events]
            show (fetchesOf st1.events).Nodup
            rw [c6, (cleanupPhase_fields req _).2.2.2.2.2.2.2.2.2.1]
            exact List.nodup_singleton _
          · rw [(closeAllInRun_fields env _).2.1,
              (writeFrame_fields env _ _).2.1, (writeFrame_fields env _ _).2.1]
            show ((st1.results ++ [cr]).map (fun r => r.url)).Nodup
            rw [c1, (cleanupPhase_fields req _).2.1]
            show ((( [] : List CrawlResult) ++ [cr]).map (fun r => r.url)).Nodup
            exact List.nodup_singleton _

/-- Witness for C6: the chained three-page site without a sitemap — where
page `/b` is discovered via a page link — yields a duplicate-free fetch
trace, duplicate-free result URLs, and a navigation trace confined to the
visited set. -/
theorem no_url_fetched_twice_witness :
    (fetchesOf (POST envC2 reqC2 [] []).events).Nodup ∧
    ((POST envC2 reqC2 [] []).results.map (fun r => r.url)).Nodup ∧
    (navsOf (POST envC2 reqC2 [] []).events).Nodup ∧
    (∀ u ∈ navsOf (POST envC2 reqC2 [] []).events,
       u ∈ (POST envC2 reqC2 [] []).visited) :=
  no_url_fetched_twice envC2 reqC2 [] [] (by decide)
